import Mathlib

/-!
Verification development for the jsonpath repository (RFC 9535 JSONPath
parser and evaluator in Go, gjson-style API).

The embedding follows the source files:
  - jsonpath.go   : JSONType, Result and its accessors, Get, GetMany
  - ast.go        : the AST and the tree-walking evaluator
  - lexer.go      : the token stream
  - parser.go     : the recursive-descent parser with backtracking
  - functions.go  : the typed function-extension subsystem and builtins
  - functions_builtin.go : the registry-based builtin variants (modelled
    where a claim cites them)

Modelling conventions, stated once:
  - Go float64 numbers are modelled as exact fractions (GoNum: an integer
    numerator over a positive denominator, compared by cross-
    multiplication); decimal literals are read exactly (the claims under
    verification never depend on binary rounding).
  - A JSON document is modelled as an inductive tree `JVal`.  In Go a
    Result's Raw field is a span of the original JSON text and arrays and
    objects are re-parsed from it on access (json.go).  Here Raw is a
    denotation: `RawSpan.node v` stands for the raw span printing the
    subtree v, `RawSpan.lit s` for the raw text of a scalar.  Raw string
    equality of two document spans (compareEqual on JSONTypeJSON) is
    modelled as structural equality of the denoted subtrees, which is what
    span equality means for spans of one canonically printed document.
  - Go functions that can crash with an index-out-of-range (the slice
    selector's default-end negative-step loop) or loop are modelled in a
    result type `ERes` with a `crash` outcome; the evaluator recursion is
    driven by a fuel parameter, `spin` marking exhausted fuel (with the
    generous fuel Evaluate supplies, `spin` is unreachable on the runs the
    theorems below examine, and every universal theorem quantifies the
    fuel explicitly).
  - The Go regexp package is external; its semantics is modelled for the
    fragment the claims exercise: literal characters, the dot, the anchors
    and top-level alternation, with RE2 precedence (alternation binds
    loosest, anchors are ordinary zero-width atoms).  Patterns outside the
    fragment do not compile in the model.
  - unicode.IsLetter / unicode.IsDigit are modelled on ASCII (their full
    Unicode tables are external data); every input below is ASCII.
-/

namespace JsonpathModel

/-- JSONType from jsonpath.go: the type tag of a Result. -/
inductive JSONType where
  | null
  | jsonFalse
  | number
  | string
  | jsonTrue
  | json
deriving DecidableEq, Repr

/-- A Go float64 as the exact value a decimal literal denotes: an integer
numerator over a positive power-of-ten denominator.  Equality and order
are cross-multiplication, so two representations of one rational agree;
the claims under verification never depend on binary float rounding. -/
structure GoNum where
  num : Int
  den : Nat
deriving DecidableEq, Repr

/-- A whole number. -/
def GoNum.ofNat (n : Nat) : GoNum := ⟨(n : Int), 1⟩

/-- Value equality of two numbers (Go float64 ==). -/
def GoNum.veq (a b : GoNum) : Bool :=
  a.num * (b.den : Int) == b.num * (a.den : Int)

/-- Value order of two numbers (Go float64 <); both denominators are
positive by construction. -/
def GoNum.vlt (a b : GoNum) : Bool :=
  decide (a.num * (b.den : Int) < b.num * (a.den : Int))

/-- A JSON document value: the tree the document accessor (json.go) lets
the evaluator see.  Numbers carry their raw text together with their
(exact) numeric value, mirroring Result.Raw / Result.Num. -/
inductive JVal where
  | null
  | jtrue
  | jfalse
  | num (raw : String) (val : GoNum)
  | str (s : String)
  | arr (elems : List JVal)
  | obj (members : List (String × JVal))
deriving Repr

/-- Denotation of Result.Raw: empty (the zero Result, and literals the Go
code forgets to give a Raw), the raw text of a scalar, or the span of an
array/object subtree. -/
inductive RawSpan where
  | empty
  | lit (s : String)
  | node (v : JVal)
deriving Repr

/-- Result from jsonpath.go: {Type, Raw, Str, Num} (the Index field is
never consulted by the evaluator and is dropped). -/
structure Result where
  type : JSONType
  raw : RawSpan
  str : String
  num : GoNum
deriving Repr

/-- The zero value Result{} of Go: this is what the code uses for Nothing. -/
def zeroResult : Result := ⟨JSONType.null, RawSpan.empty, "", GoNum.ofNat 0⟩

mutual

/-- Structural equality of subtrees, modelling Go string equality of two
raw spans of one canonically printed document. -/
def JVal.beq : JVal → JVal → Bool
  | JVal.null, JVal.null => true
  | JVal.jtrue, JVal.jtrue => true
  | JVal.jfalse, JVal.jfalse => true
  | JVal.num r1 v1, JVal.num r2 v2 => r1 == r2 && GoNum.veq v1 v2
  | JVal.str s1, JVal.str s2 => s1 == s2
  | JVal.arr xs, JVal.arr ys => JVal.beqList xs ys
  | JVal.obj xs, JVal.obj ys => JVal.beqKVList xs ys
  | _, _ => false

/-- Elementwise structural equality of array elements. -/
def JVal.beqList : List JVal → List JVal → Bool
  | [], [] => true
  | x :: xs, y :: ys => JVal.beq x y && JVal.beqList xs ys
  | _, _ => false

/-- Pairwise structural equality of object members. -/
def JVal.beqKVList : List (String × JVal) → List (String × JVal) → Bool
  | [], [] => true
  | (k1, v1) :: xs, (k2, v2) :: ys => k1 == k2 && JVal.beq v1 v2 && JVal.beqKVList xs ys
  | _, _ => false

end

/-- Equality test on raw spans (Go compares the Raw strings). -/
def RawSpan.beq : RawSpan → RawSpan → Bool
  | RawSpan.empty, RawSpan.empty => true
  | RawSpan.lit a, RawSpan.lit b => a == b
  | RawSpan.node u, RawSpan.node v => JVal.beq u v
  | _, _ => false

/-- Whether len(Raw) is zero. -/
def RawSpan.isEmptyB : RawSpan → Bool
  | RawSpan.empty => true
  | RawSpan.lit s => s.isEmpty
  | RawSpan.node _ => false

/-- The view the document accessor gives the evaluator of one document
value, as parseValue / parseArrayElement / parseObjectMember (json.go)
build it: scalars carry their raw text, arrays and objects their span. -/
def toResult : JVal → Result
  | JVal.null => ⟨JSONType.null, RawSpan.lit "null", "", GoNum.ofNat 0⟩
  | JVal.jtrue => ⟨JSONType.jsonTrue, RawSpan.lit "true", "", GoNum.ofNat 0⟩
  | JVal.jfalse => ⟨JSONType.jsonFalse, RawSpan.lit "false", "", GoNum.ofNat 0⟩
  | JVal.num raw v => ⟨JSONType.number, RawSpan.lit raw, "", v⟩
  | JVal.str s => ⟨JSONType.string, RawSpan.lit (String.append (String.append "\"" s) "\""), s, GoNum.ofNat 0⟩
  | JVal.arr xs => ⟨JSONType.json, RawSpan.node (JVal.arr xs), "", GoNum.ofNat 0⟩
  | JVal.obj kvs => ⟨JSONType.json, RawSpan.node (JVal.obj kvs), "", GoNum.ofNat 0⟩

/-- Result.Exists from jsonpath.go: r.Type != JSONTypeNull || len(r.Raw) != 0. -/
def Result.Exists (r : Result) : Bool :=
  r.type != JSONType.null || !r.raw.isEmptyB

/-- Result.IsObject: Type == JSONTypeJSON && len(Raw) > 0 && Raw[0] == the
opening brace (a span opening with a brace denotes an object subtree). -/
def Result.IsObject (r : Result) : Bool :=
  r.type == JSONType.json &&
    (match r.raw with
     | RawSpan.node (JVal.obj _) => true
     | _ => false)

/-- Result.IsArray: Type == JSONTypeJSON && len(Raw) > 0 && Raw[0] == '['. -/
def Result.IsArray (r : Result) : Bool :=
  r.type == JSONType.json &&
    (match r.raw with
     | RawSpan.node (JVal.arr _) => true
     | _ => false)

/-- Result.IsString from jsonpath.go. -/
def Result.IsString (r : Result) : Bool :=
  r.type == JSONType.string

/-- Result.Array from jsonpath.go: empty for a null Result, the one-element
list [r] for a non-array, else the parsed elements of the raw span. -/
def Result.array (r : Result) : List Result :=
  if r.type == JSONType.null then []
  else if !r.IsArray then [r]
  else
    match r.raw with
    | RawSpan.node (JVal.arr xs) => xs.map toResult
    | _ => []

/-- KV from jsonpath.go. -/
structure KV where
  key : String
  value : Result
deriving Repr

/-- The member-list loop of Result.MapKVList: parseObjectMember yields the
empty key exactly for a member whose name is the empty string, and the loop
then stops ("Stop parsing on invalid JSON to prevent infinite loop"), so
members from the first empty-keyed one on are dropped. -/
def kvListGo : List (String × JVal) → List KV
  | [] => []
  | (k, v) :: rest => if k == "" then [] else ⟨k, toResult v⟩ :: kvListGo rest

/-- Result.MapKVList from jsonpath.go: empty for null or non-object, else
the members of the span in document order (with the loop above). -/
def Result.mapKVList (r : Result) : List KV :=
  if r.type == JSONType.null then []
  else if !r.IsObject then []
  else
    match r.raw with
    | RawSpan.node (JVal.obj kvs) => kvListGo kvs
    | _ => []

/-- Lookup in Result.Map(): the Go map is built by inserting the KV list in
order, so a later duplicate key overwrites an earlier one. -/
def Result.mapFind (r : Result) (name : String) : Option Result :=
  r.mapKVList.foldl (fun acc kv => if kv.key == name then some kv.value else acc) none

/-- Number of keys of Result.Map(): distinct keys of the KV list. -/
def Result.mapSize (r : Result) : Nat :=
  ((r.mapKVList.map KV.key).eraseDups).length

/-! ## The AST (ast.go)

Go uses one struct per node with a Type tag and nil-able fields; the
parser establishes that exactly the fields of the tagged variant are set,
so each node kind is an inductive with one constructor per variant. -/

/-- SegmentType from ast.go. -/
inductive SegmentType where
  | child
  | descendant
deriving DecidableEq, Repr

/-- SliceParams from ast.go. Go's field End is endIdx here (end is a Lean
keyword). -/
structure SliceParams where
  start : Option Int
  endIdx : Option Int
  step : Option Int
deriving Repr

/-- CompOp from ast.go. -/
inductive CompOp where
  | eq
  | ne
  | lt
  | le
  | gt
  | ge
deriving DecidableEq, Repr

/-- LiteralType from ast.go. -/
inductive LiteralType where
  | string
  | number
  | true
  | false
  | null
deriving DecidableEq, Repr

/-- LiteralValue from ast.go. -/
structure LiteralValue where
  type : LiteralType
  value : String
deriving Repr

/-- SingularSegmentType from ast.go. -/
inductive SingularSegmentType where
  | name
  | index
deriving DecidableEq, Repr

/-- SingularSegment from ast.go: a name or index step of a singular query. -/
structure SingularSegment where
  type : SingularSegmentType
  name : String
  index : Int
deriving Repr

/-- SingularQuery from ast.go: relative is true for a query rooted at the
current node, false for one rooted at the document root. -/
structure SingularQuery where
  relative : Bool
  segments : List SingularSegment
deriving Repr

mutual

/-- Segment from ast.go: a child or descendant segment with its selectors. -/
inductive Segment where
  | mk (type : SegmentType) (selectors : List Selector)

/-- Selector from ast.go, one constructor per SelectorType. -/
inductive Selector where
  | name (s : String)
  | wildcard
  | index (i : Int)
  | slice (p : SliceParams)
  | filter (f : FilterExpr)

/-- FilterExpr from ast.go, one constructor per FilterExprType. -/
inductive FilterExpr where
  | lor (left right : FilterExpr)
  | land (left right : FilterExpr)
  | lnot (operand : FilterExpr)
  | paren (operand : FilterExpr)
  | comparison (c : Comparison)
  | test (t : TestExpr)

/-- Comparison from ast.go. -/
inductive Comparison where
  | mk (left : Comparable) (op : CompOp) (right : Comparable)

/-- Comparable from ast.go, one constructor per ComparableType. -/
inductive Comparable where
  | literal (l : LiteralValue)
  | singularQuery (q : SingularQuery)
  | funcExpr (f : FuncCall)

/-- TestExpr from ast.go: the parser sets exactly one of the two fields. -/
inductive TestExpr where
  | filterQuery (q : FilterQuery)
  | funcExpr (f : FuncCall)

/-- FilterQuery from ast.go. -/
inductive FilterQuery where
  | mk (relative : Bool) (segments : List Segment)

/-- FuncCall from ast.go. -/
inductive FuncCall where
  | mk (name : String) (args : List FuncArg)

/-- FuncArg from ast.go, one constructor per FuncArgType. -/
inductive FuncArg where
  | literal (l : LiteralValue)
  | filterQuery (q : FilterQuery)
  | logicalExpr (e : FilterExpr)
  | funcExpr (f : FuncCall)

end

/-- Accessor for Segment.Type. -/
def Segment.type : Segment → SegmentType
  | Segment.mk t _ => t

/-- Accessor for Segment.Selectors. -/
def Segment.selectors : Segment → List Selector
  | Segment.mk _ s => s

/-- Accessor for Comparison.Left. -/
def Comparison.left : Comparison → Comparable
  | Comparison.mk l _ _ => l

/-- Accessor for Comparison.Op. -/
def Comparison.op : Comparison → CompOp
  | Comparison.mk _ o _ => o

/-- Accessor for Comparison.Right. -/
def Comparison.right : Comparison → Comparable
  | Comparison.mk _ _ r => r

/-- Accessor for FilterQuery.Relative. -/
def FilterQuery.relative : FilterQuery → Bool
  | FilterQuery.mk r _ => r

/-- Accessor for FilterQuery.Segments. -/
def FilterQuery.segments : FilterQuery → List Segment
  | FilterQuery.mk _ s => s

/-- Accessor for FuncCall.Name. -/
def FuncCall.name : FuncCall → String
  | FuncCall.mk n _ => n

/-- Accessor for FuncCall.Args. -/
def FuncCall.args : FuncCall → List FuncArg
  | FuncCall.mk _ a => a

/-- Query from ast.go. -/
structure Query where
  segments : List Segment

mutual

/-- Size of a document value, for the fuel computation. -/
def jvalSize : JVal → Nat
  | JVal.null => 1
  | JVal.jtrue => 1
  | JVal.jfalse => 1
  | JVal.num _ _ => 1
  | JVal.str _ => 1
  | JVal.arr xs => 1 + jvalSizeList xs
  | JVal.obj kvs => 1 + jvalSizeKVList kvs

/-- Size of an element list. -/
def jvalSizeList : List JVal → Nat
  | [] => 0
  | x :: xs => jvalSize x + jvalSizeList xs

/-- Size of a member list. -/
def jvalSizeKVList : List (String × JVal) → Nat
  | [] => 0
  | (_, v) :: kvs => jvalSize v + jvalSizeKVList kvs

end

mutual

/-- Size of a segment, for the fuel computation. -/
def segmentSize : Segment → Nat
  | Segment.mk _ sels => 1 + selectorListSize sels

/-- Size of a selector list. -/
def selectorListSize : List Selector → Nat
  | [] => 0
  | s :: rest => selectorSize s + selectorListSize rest

/-- Size of a selector. -/
def selectorSize : Selector → Nat
  | Selector.name _ => 1
  | Selector.wildcard => 1
  | Selector.index _ => 1
  | Selector.slice _ => 1
  | Selector.filter f => 1 + filterExprSize f

/-- Size of a filter expression. -/
def filterExprSize : FilterExpr → Nat
  | FilterExpr.lor l r => 1 + filterExprSize l + filterExprSize r
  | FilterExpr.land l r => 1 + filterExprSize l + filterExprSize r
  | FilterExpr.lnot op => 1 + filterExprSize op
  | FilterExpr.paren op => 1 + filterExprSize op
  | FilterExpr.comparison c => 1 + comparisonSize c
  | FilterExpr.test t => 1 + testExprSize t

/-- Size of a comparison. -/
def comparisonSize : Comparison → Nat
  | Comparison.mk l _ r => 1 + comparableSize l + comparableSize r

/-- Size of a comparable. -/
def comparableSize : Comparable → Nat
  | Comparable.literal _ => 1
  | Comparable.singularQuery _ => 1
  | Comparable.funcExpr f => 1 + funcCallSize f

/-- Size of a test expression. -/
def testExprSize : TestExpr → Nat
  | TestExpr.filterQuery q => 1 + filterQuerySize q
  | TestExpr.funcExpr f => 1 + funcCallSize f

/-- Size of a filter query. -/
def filterQuerySize : FilterQuery → Nat
  | FilterQuery.mk _ segs => 1 + segmentListSize segs

/-- Size of a segment list. -/
def segmentListSize : List Segment → Nat
  | [] => 0
  | s :: rest => segmentSize s + segmentListSize rest

/-- Size of a function call. -/
def funcCallSize : FuncCall → Nat
  | FuncCall.mk _ args => 1 + funcArgListSize args

/-- Size of an argument list. -/
def funcArgListSize : List FuncArg → Nat
  | [] => 0
  | a :: rest => funcArgSize a + funcArgListSize rest

/-- Size of a function argument. -/
def funcArgSize : FuncArg → Nat
  | FuncArg.literal _ => 1
  | FuncArg.filterQuery q => 1 + filterQuerySize q
  | FuncArg.logicalExpr ex => 1 + filterExprSize ex
  | FuncArg.funcExpr f => 1 + funcCallSize f

end

/-- Size of a query, for the fuel computation. -/
def querySize (q : Query) : Nat :=
  1 + segmentListSize q.segments

/-! ## Evaluation outcomes

Go evaluation either returns a value, crashes with a runtime error (the
one index-out-of-range the slice selector can hit), or in the model runs
out of fuel.  With the fuel Evaluate supplies, spin never occurs on the
runs the theorems examine. -/

/-- Outcome of one evaluator step. -/
inductive ERes (α : Type) where
  | val (a : α)
  | crash
  | spin

/-! ## The simple selectors (ast.go) -/

/-- clamp from ast.go. -/
def clamp (v lo hi : Int) : Int :=
  if v < lo then lo else if v > hi then hi else v

/-- normalizeSliceBounds from ast.go: returns (start, end, endIsDefault).
Defaults per RFC 9535 Table 8, except that a defaulted end with negative
step is marked endIsDefault (and the marker value -1 is not clamped). -/
def normalizeSliceBounds (start endo : Option Int) (step arrLen : Int) :
    Int × Int × Bool :=
  let s : Int :=
    match start with
    | some v => if v < 0 then arrLen + v else v
    | none => if step < 0 then arrLen - 1 else 0
  let enDefault : Int × Bool :=
    match endo with
    | some v => (if v < 0 then arrLen + v else v, false)
    | none => if step < 0 then (-1, true) else (arrLen, false)
  let en := enDefault.1
  let endIsDefault := enDefault.2
  let s := clamp s 0 (arrLen - 1)
  let en := if !endIsDefault then clamp en 0 arrLen else en
  (s, en, endIsDefault)

/-- The positive-step slice loop: for i := start; i < en; i += step, keeping
arr[i] under the bounds guard.  The fuel bounds the iteration count; the
caller passes one more than the distance to en, which step >= 1 cannot
exceed. -/
def sliceFwdLoop (arr : List Result) (arrLen en step : Int) :
    Nat → Int → List Result
  | 0, _ => []
  | fuel + 1, i =>
      if i < en then
        (if 0 ≤ i ∧ i < arrLen then (arr.get? i.toNat).toList else []) ++
          sliceFwdLoop arr arrLen en step fuel (i + step)
      else []

/-- The negative-step explicit-end slice loop: for i := start; i > en;
i += step, keeping arr[i] under the bounds guard. -/
def sliceNegLoop (arr : List Result) (arrLen en step : Int) :
    Nat → Int → List Result
  | 0, _ => []
  | fuel + 1, i =>
      if en < i then
        (if 0 ≤ i ∧ i < arrLen then (arr.get? i.toNat).toList else []) ++
          sliceNegLoop arr arrLen en step fuel (i + step)
      else []

/-- The negative-step default-end slice loop: for i := start; i >= 0;
i += step appending arr[i] with no bounds guard, so an index at or past
the array length is an index-out-of-range crash. -/
def sliceNegDefaultLoop (arr : List Result) (step : Int) :
    Nat → Int → ERes (List Result)
  | 0, _ => ERes.spin
  | fuel + 1, i =>
      if 0 ≤ i then
        match arr.get? i.toNat with
        | none => ERes.crash
        | some v =>
            match sliceNegDefaultLoop arr step fuel (i + step) with
            | ERes.val tl => ERes.val (v :: tl)
            | ERes.crash => ERes.crash
            | ERes.spin => ERes.spin
      else ERes.val []

/-- evalSliceSelector from ast.go. -/
def evalSliceSelector (r : Result) (slice : SliceParams) : ERes (List Result) :=
  if !r.IsArray then ERes.val []
  else
    let arr := r.array
    let arrLen : Int := arr.length
    let step : Int := match slice.step with | some st => st | none => 1
    if step == 0 then ERes.val []
    else
      match normalizeSliceBounds slice.start slice.endIdx step arrLen with
      | (s, en, endIsDefault) =>
          if 0 < step then
            ERes.val (sliceFwdLoop arr arrLen en step ((en - s).toNat + 1) s)
          else if endIsDefault then
            sliceNegDefaultLoop arr step ((s + 1).toNat + 1) s
          else
            ERes.val (sliceNegLoop arr arrLen en step ((s - en).toNat + 1) s)

/-- evalNameSelector from ast.go. -/
def evalNameSelector (r : Result) (name : String) : List Result :=
  if !r.IsObject then []
  else
    match r.mapFind name with
    | some v => [v]
    | none => []

/-- evalWildcardSelector from ast.go. -/
def evalWildcardSelector (r : Result) : List Result :=
  if r.IsArray then r.array
  else if r.IsObject then r.mapKVList.map KV.value
  else []

/-- evalIndexSelector from ast.go. -/
def evalIndexSelector (r : Result) (index : Int) : List Result :=
  if !r.IsArray then []
  else
    let arr := r.array
    let length : Int := arr.length
    let index := if index < 0 then length + index else index
    if index < 0 ∨ length ≤ index then []
    else
      match arr.get? index.toNat with
      | some v => [v]
      | none => []

/-! ## Literals and comparison primitives (ast.go) -/

/-- Digit run to a natural number. -/
def digitsToNat (cs : List Char) : Nat :=
  cs.foldl (fun a c => a * 10 + (c.toNat - 48)) 0

/-- Exact reading of a decimal literal, modelling strconv.ParseFloat on the
number strings the lexer admits (sign, digits, optional fraction, optional
exponent); the value is the integer spelled by all mantissa digits, scaled
by ten to the exponent minus the fraction length. -/
def parseFloatNum (s : String) : GoNum :=
  let cs := s.toList
  let negMant : Bool × List Char :=
    match cs with
    | '-' :: rest => (true, rest)
    | _ => (false, cs)
  let intDs := negMant.2.takeWhile Char.isDigit
  let afterInt := negMant.2.dropWhile Char.isDigit
  let fracDs : List Char :=
    match afterInt with
    | '.' :: rest => rest.takeWhile Char.isDigit
    | _ => []
  let afterFrac : List Char :=
    match afterInt with
    | '.' :: rest => rest.dropWhile Char.isDigit
    | _ => afterInt
  let expPart : Bool × List Char :=
    match afterFrac with
    | 'e' :: '-' :: rest => (true, rest.takeWhile Char.isDigit)
    | 'E' :: '-' :: rest => (true, rest.takeWhile Char.isDigit)
    | 'e' :: '+' :: rest => (false, rest.takeWhile Char.isDigit)
    | 'E' :: '+' :: rest => (false, rest.takeWhile Char.isDigit)
    | 'e' :: rest => (false, rest.takeWhile Char.isDigit)
    | 'E' :: rest => (false, rest.takeWhile Char.isDigit)
    | _ => (false, [])
  let mantDigits : Nat := digitsToNat (intDs ++ fracDs)
  let mantInt : Int := if negMant.1 then -(mantDigits : Int) else (mantDigits : Int)
  let expN : Int := if expPart.1 then -(digitsToNat expPart.2 : Int) else (digitsToNat expPart.2 : Int)
  let expTotal : Int := expN - (fracDs.length : Int)
  if 0 ≤ expTotal then ⟨mantInt * ((10 : Int) ^ expTotal.toNat), 1⟩
  else ⟨mantInt, (10 : Nat) ^ (-expTotal).toNat⟩

/-- evalLiteral from ast.go.  Only the number case sets Raw: the string,
boolean and null cases leave the zero Raw, which is what makes a null
literal fail Result.Exists. -/
def evalLiteral (lit : LiteralValue) : Result :=
  match lit.type with
  | LiteralType.string => ⟨JSONType.string, RawSpan.empty, lit.value, GoNum.ofNat 0⟩
  | LiteralType.number => ⟨JSONType.number, RawSpan.lit lit.value, "", parseFloatNum lit.value⟩
  | LiteralType.true => ⟨JSONType.jsonTrue, RawSpan.empty, "", GoNum.ofNat 0⟩
  | LiteralType.false => ⟨JSONType.jsonFalse, RawSpan.empty, "", GoNum.ofNat 0⟩
  | LiteralType.null => ⟨JSONType.null, RawSpan.empty, "", GoNum.ofNat 0⟩

/-- compareEqual from ast.go: different type tags are unequal; per type,
numeric, string, or raw-span (structural) equality. -/
def compareEqual (a b : Result) : Bool :=
  if a.type != b.type then false
  else
    match a.type with
    | JSONType.null => true
    | JSONType.jsonTrue => a.type == b.type
    | JSONType.jsonFalse => a.type == b.type
    | JSONType.number => GoNum.veq a.num b.num
    | JSONType.string => a.str == b.str
    | JSONType.json => RawSpan.beq a.raw b.raw

/-- compareLess from ast.go: only two numbers or two strings are ordered;
every other pairing is false. -/
def compareLess (a b : Result) : Bool :=
  if a.type != b.type then false
  else
    match a.type with
    | JSONType.number => GoNum.vlt a.num b.num
    | JSONType.string => decide (a.str < b.str)
    | _ => false

/-- funcResultToLogical from ast.go. -/
def funcResultToLogical (r : Result) : Bool :=
  if !r.Exists then false
  else if r.type == JSONType.jsonTrue then true
  else if r.type == JSONType.jsonFalse then false
  else true

/-- logicalResult from functions.go: LogicalTrue / LogicalFalse as Results. -/
def logicalResult (value : Bool) : Result :=
  if value then ⟨JSONType.jsonTrue, RawSpan.lit "true", "", GoNum.ofNat 0⟩
  else ⟨JSONType.jsonFalse, RawSpan.lit "false", "", GoNum.ofNat 0⟩

/-! ## The function-extension subsystem (functions.go) -/

/-- FuncResultType from functions.go. -/
inductive FuncResultType where
  | value
  | logical
  | nodes
deriving DecidableEq, Repr

/-- FuncParamType from functions.go. -/
inductive FuncParamType where
  | value
  | logical
  | nodes
deriving DecidableEq, Repr

/-- FuncContext from functions.go: the syntactic position of a call. -/
inductive FuncContext where
  | comparable
  | test
  | argument
deriving DecidableEq, Repr

/-- FuncSignature from functions.go. -/
structure FuncSignature where
  name : String
  paramTypes : List FuncParamType
  returnType : FuncResultType
deriving DecidableEq, Repr

/-- builtinSignatures from functions.go: the five built-in signatures. -/
def builtinSignatures : List (String × FuncSignature) :=
  [("length", ⟨"length", [FuncParamType.value], FuncResultType.value⟩),
   ("count", ⟨"count", [FuncParamType.nodes], FuncResultType.value⟩),
   ("match", ⟨"match", [FuncParamType.value, FuncParamType.value], FuncResultType.logical⟩),
   ("search", ⟨"search", [FuncParamType.value, FuncParamType.value], FuncResultType.logical⟩),
   ("value", ⟨"value", [FuncParamType.nodes], FuncResultType.value⟩)]

/-- Name lookup in a signature table. -/
def sigLookup (table : List (String × FuncSignature)) (name : String) :
    Option FuncSignature :=
  (table.find? (fun p => p.1 == name)).map (fun p => p.2)

/-- Evaluator from ast.go: the document (already through the accessor) and
the query.  The process-global custom-signature registry of functions.go is
a field here so a claim about registered signatures can quantify over it;
custom handlers are host code outside the repository and are modelled as
unregistered, so callFunction always falls through to the builtins. -/
structure Evaluator where
  json : JVal
  query : Query
  customSignatures : List (String × FuncSignature)

/-- findFunctionSignature from functions.go: builtins first, then the
custom registry. -/
def findFunctionSignature (e : Evaluator) (name : String) : Option FuncSignature :=
  match sigLookup builtinSignatures name with
  | some sig => some sig
  | none => sigLookup e.customSignatures name

/-- checkFunctionWellTyped from functions.go: the argument count must equal
the declared parameter count; in test position the declared return type
must be Logical or Nodes; in comparable position it must be Value; in
argument position the caller checks. -/
def checkFunctionWellTyped (fn : FuncCall) (sig : FuncSignature)
    (context : FuncContext) : Bool :=
  if fn.args.length != sig.paramTypes.length then false
  else
    match context with
    | FuncContext.test =>
        !(sig.returnType != FuncResultType.logical &&
          sig.returnType != FuncResultType.nodes)
    | FuncContext.comparable => sig.returnType == FuncResultType.value
    | FuncContext.argument => true

/-- evalFuncResult from functions.go: one evaluated function argument or
result, in one of the three type lanes, with the Nothing marker. -/
structure EvalFuncResult where
  value : Result
  logical : Bool
  nodes : List Result
  resultType : FuncResultType
  isNothing : Bool
deriving Repr

/-- evalLiteralArg from functions.go: a literal satisfies only a Value
parameter (none models ok = false). -/
def evalLiteralArg (lit : LiteralValue) (expectedType : FuncParamType) :
    Option EvalFuncResult :=
  match expectedType with
  | FuncParamType.value =>
      some ⟨evalLiteral lit, false, [], FuncResultType.value, false⟩
  | FuncParamType.logical => none
  | FuncParamType.nodes => none

/-! ## A model of the Go regexp fragment the builtins use

match and search hand regexp.Compile a pattern string; the model covers
literal characters, escaped punctuation, the dot, the anchors and
top-level alternation, with RE2 precedence: alternation binds loosest and
an anchor is an ordinary zero-width atom of its branch.  A pattern using
any other metacharacter does not compile in the model. -/

/-- One atom of a compiled branch. -/
inductive RAtom where
  | ch (c : Char)
  | dot
  | bol
  | eol
deriving DecidableEq, Repr

/-- Pattern text to branches (alternation of atom sequences). -/
def reCompileAux : List Char → List RAtom → Option (List (List RAtom))
  | [], acc => some [acc.reverse]
  | c :: rest, acc =>
      if c = '|' then
        match reCompileAux rest [] with
        | some brs => some (acc.reverse :: brs)
        | none => none
      else if c = '^' then reCompileAux rest (RAtom.bol :: acc)
      else if c = '$' then reCompileAux rest (RAtom.eol :: acc)
      else if c = '.' then reCompileAux rest (RAtom.dot :: acc)
      else if c = '\\' then
        match rest with
        | d :: rest2 =>
            if d.isAlphanum then none else reCompileAux rest2 (RAtom.ch d :: acc)
        | [] => none
      else if c = '(' ∨ c = ')' ∨ c = '[' ∨ c = ']' ∨ c = '*' ∨ c = '+' ∨
          c = '?' ∨ c.toNat = 123 ∨ c.toNat = 125 then none
      else reCompileAux rest (RAtom.ch c :: acc)

/-- regexp.Compile on the fragment. -/
def reCompile (pattern : String) : Option (List (List RAtom)) :=
  reCompileAux pattern.toList []

/-- Deterministic run of one branch from a position: the position after the
branch, or none when it fails there. -/
def reRun (cs : List Char) : List RAtom → Nat → Option Nat
  | [], pos => some pos
  | RAtom.bol :: as, pos => if pos = 0 then reRun cs as pos else none
  | RAtom.eol :: as, pos => if pos = cs.length then reRun cs as pos else none
  | RAtom.dot :: as, pos => if pos < cs.length then reRun cs as (pos + 1) else none
  | RAtom.ch c :: as, pos =>
      match cs.get? pos with
      | some d => if d = c then reRun cs as (pos + 1) else none
      | none => none

/-- Regexp.MatchString: some branch matches somewhere in the string. -/
def reMatchString (re : List (List RAtom)) (s : String) : Bool :=
  let cs := s.toList
  (List.range (cs.length + 1)).any fun i => re.any fun b => (reRun cs b i).isSome

/-- The whole-string match RFC 9535 requires of match(): some branch of the
pattern consumes the string from its start to its end. -/
def reWholeMatch (re : List (List RAtom)) (s : String) : Bool :=
  re.any fun b => reRun s.toList b 0 == some s.toList.length

/-! ## The builtins (functions.go) -/

/-- A number Result as the builtins construct one (Num plus Itoa Raw). -/
def numberResult (n : Nat) : Result :=
  ⟨JSONType.number, RawSpan.lit (toString n), "", GoNum.ofNat n⟩

/-- builtinLength from functions.go: array element count, object key count,
or string length in bytes (Go len of the string); any other type is
Nothing.  (The registry variant in functions_builtin.go counts codepoints
instead; see registerLengthHandler below.) -/
def builtinLength (args : List EvalFuncResult) : Result × Bool :=
  match args with
  | [arg] =>
      if arg.isNothing then (zeroResult, true)
      else if arg.resultType != FuncResultType.value then (zeroResult, false)
      else
        let v := arg.value
        if v.IsArray then (numberResult v.array.length, true)
        else if v.IsObject then (numberResult v.mapSize, true)
        else if v.type == JSONType.string then (numberResult v.str.utf8ByteSize, true)
        else (zeroResult, true)
  | _ => (zeroResult, false)

/-- builtinCount from functions.go. -/
def builtinCount (args : List EvalFuncResult) : Result × Bool :=
  match args with
  | [arg] =>
      if arg.resultType != FuncResultType.nodes then (zeroResult, false)
      else (numberResult arg.nodes.length, true)
  | _ => (zeroResult, false)

/-- builtinMatch from functions.go: both arguments must be existing string
values; the pattern is anchored by prepending a caret and appending a
dollar to its text and compiled; a compile failure is LogicalFalse. -/
def builtinMatch (args : List EvalFuncResult) : Result × Bool :=
  match args with
  | [input, pattern] =>
      if input.isNothing ∨ input.resultType != FuncResultType.value ∨
          input.value.type != JSONType.string then
        (logicalResult false, true)
      else if pattern.isNothing ∨ pattern.resultType != FuncResultType.value ∨
          pattern.value.type != JSONType.string then
        (logicalResult false, true)
      else
        match reCompile (String.append (String.append "^" pattern.value.str) "$") with
        | none => (logicalResult false, true)
        | some re => (logicalResult (reMatchString re input.value.str), true)
  | _ => (zeroResult, false)

/-- builtinSearch from functions.go: as match but unanchored. -/
def builtinSearch (args : List EvalFuncResult) : Result × Bool :=
  match args with
  | [input, pattern] =>
      if input.isNothing ∨ input.resultType != FuncResultType.value ∨
          input.value.type != JSONType.string then
        (logicalResult false, true)
      else if pattern.isNothing ∨ pattern.resultType != FuncResultType.value ∨
          pattern.value.type != JSONType.string then
        (logicalResult false, true)
      else
        match reCompile pattern.value.str with
        | none => (logicalResult false, true)
        | some re => (logicalResult (reMatchString re input.value.str), true)
  | _ => (zeroResult, false)

/-- builtinValue from functions.go: the single node if exactly one, else
Nothing. -/
def builtinValue (args : List EvalFuncResult) : Result × Bool :=
  match args with
  | [arg] =>
      if arg.resultType != FuncResultType.nodes then (zeroResult, false)
      else
        match arg.nodes with
        | [v] => (v, true)
        | _ => (zeroResult, true)
  | _ => (zeroResult, false)

/-- callFunction from functions.go with the custom-handler registry empty
(handlers are host code): dispatch to the builtin implementations, unknown
names failing. -/
def callFunction (name : String) (args : List EvalFuncResult) : Result × Bool :=
  if name == "length" then builtinLength args
  else if name == "count" then builtinCount args
  else if name == "match" then builtinMatch args
  else if name == "search" then builtinSearch args
  else if name == "value" then builtinValue args
  else (zeroResult, false)

/-- The length() handler of functions_builtin.go (registerLength): the
registry-based variant counts codepoints of a string
(utf8.RuneCountInString), elements of an array, members of the KV list of
an object, and is Nothing otherwise.  Its string case also sets Raw to the
input string and its container cases leave Raw empty, faithfully kept. -/
def registerLengthHandler (val : Result) : Option Result :=
  if val.IsString then
    some ⟨JSONType.number, RawSpan.lit val.str, "", GoNum.ofNat val.str.length⟩
  else if val.IsArray then
    some ⟨JSONType.number, RawSpan.empty, "", GoNum.ofNat val.array.length⟩
  else if val.IsObject then
    some ⟨JSONType.number, RawSpan.empty, "", GoNum.ofNat val.mapKVList.length⟩
  else none

/-! ## Singular queries (ast.go) -/

/-- The segment loop of evalSingularQuery: name and index selectors only,
an empty intermediate node list ending the query. -/
def evalSingularSegmentsLoop : List SingularSegment → List Result → List Result
  | [], results => results
  | seg :: rest, results =>
      let newResults := results.flatMap (fun r =>
        match seg.type with
        | SingularSegmentType.name => evalNameSelector r seg.name
        | SingularSegmentType.index => evalIndexSelector r seg.index)
      if newResults.isEmpty then [] else evalSingularSegmentsLoop rest newResults

/-- evalSingularQuery from ast.go: start at the current node or the root,
apply the segments, take the first result or Nothing. -/
def evalSingularQuery (e : Evaluator) (q : SingularQuery) (currentNode : Result) :
    Result :=
  let init := if q.relative then [currentNode] else [toResult e.json]
  match evalSingularSegmentsLoop q.segments init with
  | [] => zeroResult
  | r :: _ => r

/-! ## The recursive evaluator (ast.go and functions.go)

One mutual block, recursion driven by the fuel so every equation is a
plain structural one.  Go's nil-slice results are empty lists; a Go
(value, ok) pair keeps its shape; a Go (value, error) never occurs in this
variant of the code.  The Go loops "for each selector", "for each input
node", "for each segment" are the list recursions applySelectors,
applySelectorsToAll and runFilterSegments. -/

/-- Sequencing of evaluation outcomes: a crash or exhausted fuel stops the
run. -/
def ERes.bind {α β : Type} : ERes α → (α → ERes β) → ERes β
  | ERes.val a, f => f a
  | ERes.crash, _ => ERes.crash
  | ERes.spin, _ => ERes.spin

/-- The evalFuncResult a filter-query argument coerced to a Value parameter
yields when the nodelist is not a single node. -/
def nothingValueResult : EvalFuncResult :=
  ⟨zeroResult, false, [], FuncResultType.value, true⟩

mutual

/-- evaluateSelector from ast.go. -/
def evaluateSelector (e : Evaluator) : Nat → Selector → Result → ERes (List Result)
  | 0, _, _ => ERes.spin
  | fuel + 1, sel, r =>
      match sel with
      | Selector.name n => ERes.val (evalNameSelector r n)
      | Selector.wildcard => ERes.val (evalWildcardSelector r)
      | Selector.index i => ERes.val (evalIndexSelector r i)
      | Selector.slice p => evalSliceSelector r p
      | Selector.filter f => evalFilterSelector e fuel f r

/-- The per-node selector loop shared by evaluateSegment, collectDescendants
and the filter-query loops: results of every selector on one node, in
selector order. -/
def applySelectors (e : Evaluator) : Nat → List Selector → Result → ERes (List Result)
  | 0, _, _ => ERes.spin
  | fuel + 1, sels, r =>
      match sels with
      | [] => ERes.val []
      | s :: rest =>
          ERes.bind (evaluateSelector e fuel s r) fun selected =>
          ERes.bind (applySelectors e fuel rest r) fun tl =>
          ERes.val (selected ++ tl)

/-- The input-node loop of a child segment: every selector applied to every
input node, input order outermost. -/
def applySelectorsToAll (e : Evaluator) :
    Nat → List Selector → List Result → ERes (List Result)
  | 0, _, _ => ERes.spin
  | fuel + 1, sels, rs =>
      match rs with
      | [] => ERes.val []
      | r :: rest =>
          ERes.bind (applySelectors e fuel sels r) fun a =>
          ERes.bind (applySelectorsToAll e fuel sels rest) fun b =>
          ERes.val (a ++ b)

/-- The segment loop of evalFilterQueryTest and evalFilterQueryArg
(ast.go, functions.go): each segment's selectors rewrite the node list,
an empty list short-circuiting.  This loop reads only the selectors, never
the segment kind. -/
def runFilterSegments (e : Evaluator) :
    Nat → List Segment → List Result → ERes (List Result)
  | 0, _, _ => ERes.spin
  | fuel + 1, segs, rs =>
      match segs with
      | [] => ERes.val rs
      | seg :: rest =>
          ERes.bind (applySelectorsToAll e fuel seg.selectors rs) fun nr =>
          if nr.isEmpty then ERes.val [] else runFilterSegments e fuel rest nr

/-- collectDescendants from ast.go: apply the selectors to the node, then
recurse into array elements in index order or object members in document
order. -/
def collectDescendants (e : Evaluator) : Nat → List Selector → Result → ERes (List Result)
  | 0, _, _ => ERes.spin
  | fuel + 1, sels, r =>
      ERes.bind (applySelectors e fuel sels r) fun here =>
      if r.IsArray then
        ERes.bind (collectDescendantsList e fuel sels r.array) fun sub =>
        ERes.val (here ++ sub)
      else if r.IsObject then
        ERes.bind (collectDescendantsList e fuel sels (r.mapKVList.map KV.value)) fun sub =>
        ERes.val (here ++ sub)
      else ERes.val here

/-- The element/member loop of collectDescendants, also the input-node loop
of a descendant segment (evaluateSegment collects each input node's
descendants in input order). -/
def collectDescendantsList (e : Evaluator) :
    Nat → List Selector → List Result → ERes (List Result)
  | 0, _, _ => ERes.spin
  | fuel + 1, sels, rs =>
      match rs with
      | [] => ERes.val []
      | c :: rest =>
          ERes.bind (collectDescendants e fuel sels c) fun a =>
          ERes.bind (collectDescendantsList e fuel sels rest) fun b =>
          ERes.val (a ++ b)

/-- evalFilterSelector from ast.go: keep the array elements or object
member values satisfying the filter. -/
def evalFilterSelector (e : Evaluator) : Nat → FilterExpr → Result → ERes (List Result)
  | 0, _, _ => ERes.spin
  | fuel + 1, f, r =>
      if r.IsArray then filterChildren e fuel f r.array
      else if r.IsObject then filterChildren e fuel f (r.mapKVList.map KV.value)
      else ERes.val []

/-- The element loop of evalFilterSelector. -/
def filterChildren (e : Evaluator) : Nat → FilterExpr → List Result → ERes (List Result)
  | 0, _, _ => ERes.spin
  | fuel + 1, f, rs =>
      match rs with
      | [] => ERes.val []
      | c :: rest =>
          ERes.bind (evalFilterExpr e fuel f c) fun b =>
          ERes.bind (filterChildren e fuel f rest) fun tl =>
          ERes.val (if b then c :: tl else tl)

/-- evalFilterExpr from ast.go, with Go's short-circuiting || and &&. -/
def evalFilterExpr (e : Evaluator) : Nat → FilterExpr → Result → ERes Bool
  | 0, _, _ => ERes.spin
  | fuel + 1, f, r =>
      match f with
      | FilterExpr.lor l rg =>
          ERes.bind (evalFilterExpr e fuel l r) fun b =>
          if b then ERes.val true else evalFilterExpr e fuel rg r
      | FilterExpr.land l rg =>
          ERes.bind (evalFilterExpr e fuel l r) fun b =>
          if b then evalFilterExpr e fuel rg r else ERes.val false
      | FilterExpr.lnot op => ERes.bind (evalFilterExpr e fuel op r) fun b => ERes.val (!b)
      | FilterExpr.paren op => evalFilterExpr e fuel op r
      | FilterExpr.comparison c => evalComparison e fuel c r
      | FilterExpr.test t => evalTestExpr e fuel t r

/-- evalComparison from ast.go: evaluate both comparables; when either is
Nothing, equality holds iff both are and order never holds; otherwise
compareEqual / compareLess decide, with greater-than as neither-less-nor-
equal and greater-or-equal as not-less. -/
def evalComparison (e : Evaluator) : Nat → Comparison → Result → ERes Bool
  | 0, _, _ => ERes.spin
  | fuel + 1, Comparison.mk left op right, r =>
      ERes.bind (evalComparable e fuel left r) fun lv =>
      ERes.bind (evalComparable e fuel right r) fun rv =>
      let leftEmpty := !lv.Exists
      let rightEmpty := !rv.Exists
      ERes.val (
        if leftEmpty || rightEmpty then
          match op with
          | CompOp.eq => leftEmpty && rightEmpty
          | CompOp.ne => !leftEmpty || !rightEmpty
          | _ => false
        else
          match op with
          | CompOp.eq => compareEqual lv rv
          | CompOp.ne => !compareEqual lv rv
          | CompOp.lt => compareLess lv rv
          | CompOp.le => compareLess lv rv || compareEqual lv rv
          | CompOp.gt => !compareLess lv rv && !compareEqual lv rv
          | CompOp.ge => !compareLess lv rv)

/-- evalComparable from ast.go: a failed function call leaves the zero
Result, i.e. Nothing (the ok flag is discarded). -/
def evalComparable (e : Evaluator) : Nat → Comparable → Result → ERes Result
  | 0, _, _ => ERes.spin
  | fuel + 1, c, r =>
      match c with
      | Comparable.literal lit => ERes.val (evalLiteral lit)
      | Comparable.singularQuery q => ERes.val (evalSingularQuery e q r)
      | Comparable.funcExpr fn =>
          ERes.bind (evalFuncCall e fuel fn FuncContext.comparable r) fun p =>
          ERes.val p.1

/-- evalTestExpr from ast.go: a filter-query test is existence; a function
call that is not ok is false, and an ok result is read as a logical. -/
def evalTestExpr (e : Evaluator) : Nat → TestExpr → Result → ERes Bool
  | 0, _, _ => ERes.spin
  | fuel + 1, t, r =>
      match t with
      | TestExpr.filterQuery q => evalFilterQueryTest e fuel q r
      | TestExpr.funcExpr fn =>
          ERes.bind (evalFuncCall e fuel fn FuncContext.test r) fun p =>
          if !p.2 then ERes.val false else ERes.val (funcResultToLogical p.1)

/-- evalFilterQueryTest from ast.go: true iff the filter query selects at
least one node. -/
def evalFilterQueryTest (e : Evaluator) : Nat → FilterQuery → Result → ERes Bool
  | 0, _, _ => ERes.spin
  | fuel + 1, q, r =>
      ERes.bind
        (runFilterSegments e fuel q.segments (if q.relative then [r] else [toResult e.json]))
        fun res => ERes.val (!res.isEmpty)

/-- evalFuncCall from functions.go: look the name up, check well-typedness
for the call site, evaluate the arguments, then dispatch; any failure is
(zero Result, false) with no error raised. -/
def evalFuncCall (e : Evaluator) :
    Nat → FuncCall → FuncContext → Result → ERes (Result × Bool)
  | 0, _, _, _ => ERes.spin
  | fuel + 1, fn, context, r =>
      match findFunctionSignature e fn.name with
      | none => ERes.val (zeroResult, false)
      | some sig =>
          if !checkFunctionWellTyped fn sig context then ERes.val (zeroResult, false)
          else
            ERes.bind (evalFuncArgsAux e fuel fn.args sig.paramTypes r) fun argsOpt =>
            match argsOpt with
            | none => ERes.val (zeroResult, false)
            | some args => ERes.val (callFunction fn.name args)

/-- The argument loop of evalFuncArgs (functions.go), pairing each argument
with its declared parameter type; the inner none is Go's ok = false.  Go
indexes ParamTypes by the argument position, in range because the arity
was checked, so the model's leftover-arguments case cannot be reached. -/
def evalFuncArgsAux (e : Evaluator) :
    Nat → List FuncArg → List FuncParamType → Result → ERes (Option (List EvalFuncResult))
  | 0, _, _, _ => ERes.spin
  | fuel + 1, args, ptypes, r =>
      match args, ptypes with
      | [], _ => ERes.val (some [])
      | a :: rest, pt :: pts =>
          ERes.bind (evalFuncArg e fuel a pt r) fun vOpt =>
          match vOpt with
          | none => ERes.val none
          | some v =>
              ERes.bind (evalFuncArgsAux e fuel rest pts r) fun tlOpt =>
              match tlOpt with
              | none => ERes.val none
              | some tl => ERes.val (some (v :: tl))
      | _ :: _, [] => ERes.crash

/-- evalFuncArg from functions.go. -/
def evalFuncArg (e : Evaluator) :
    Nat → FuncArg → FuncParamType → Result → ERes (Option EvalFuncResult)
  | 0, _, _, _ => ERes.spin
  | fuel + 1, a, pt, r =>
      match a with
      | FuncArg.literal lit => ERes.val (evalLiteralArg lit pt)
      | FuncArg.filterQuery q => evalFilterQueryArg e fuel q pt r
      | FuncArg.logicalExpr ex => evalLogicalExprArg e fuel ex pt r
      | FuncArg.funcExpr fn => evalFuncExprArg e fuel fn pt r

/-- evalFilterQueryArg from functions.go: run the query, then coerce the
nodelist: a Value parameter takes the single node or Nothing, a Nodes
parameter the list, a Logical parameter its non-emptiness. -/
def evalFilterQueryArg (e : Evaluator) :
    Nat → FilterQuery → FuncParamType → Result → ERes (Option EvalFuncResult)
  | 0, _, _, _ => ERes.spin
  | fuel + 1, q, pt, r =>
      ERes.bind
        (runFilterSegments e fuel q.segments (if q.relative then [r] else [toResult e.json]))
        fun results =>
      match pt with
      | FuncParamType.value =>
          ERes.val (some (
            match results with
            | [] => nothingValueResult
            | [x] => ⟨x, false, [], FuncResultType.value, false⟩
            | _ => nothingValueResult))
      | FuncParamType.nodes =>
          ERes.val (some ⟨zeroResult, false, results, FuncResultType.nodes, false⟩)
      | FuncParamType.logical =>
          ERes.val (some ⟨zeroResult, !results.isEmpty, [], FuncResultType.logical, false⟩)

/-- evalLogicalExprArg from functions.go: a logical expression satisfies
only a Logical parameter. -/
def evalLogicalExprArg (e : Evaluator) :
    Nat → FilterExpr → FuncParamType → Result → ERes (Option EvalFuncResult)
  | 0, _, _, _ => ERes.spin
  | fuel + 1, ex, pt, r =>
      if pt != FuncParamType.logical then ERes.val none
      else
        ERes.bind (evalFilterExpr e fuel ex r) fun b =>
        ERes.val (some ⟨zeroResult, b, [], FuncResultType.logical, false⟩)

/-- evalFuncExprArg from functions.go: a nested call's result, narrowed to
the expected parameter type (Nodes narrowing to Logical by existence). -/
def evalFuncExprArg (e : Evaluator) :
    Nat → FuncCall → FuncParamType → Result → ERes (Option EvalFuncResult)
  | 0, _, _, _ => ERes.spin
  | fuel + 1, fn, pt, r =>
      ERes.bind (evalFuncCall e fuel fn FuncContext.argument r) fun p =>
      if !p.2 then ERes.val none
      else
        match findFunctionSignature e fn.name with
        | none => ERes.val none
        | some sig =>
            match sig.returnType with
            | FuncResultType.value =>
                if pt == FuncParamType.value then
                  ERes.val (some ⟨p.1, false, [], FuncResultType.value, !p.1.Exists⟩)
                else ERes.val none
            | FuncResultType.logical =>
                if pt == FuncParamType.logical then
                  ERes.val (some ⟨zeroResult,
                    p.1.Exists && p.1.type != JSONType.null &&
                      p.1.type != JSONType.jsonFalse,
                    [], FuncResultType.logical, false⟩)
                else ERes.val none
            | FuncResultType.nodes =>
                if pt == FuncParamType.nodes then ERes.val none
                else if pt == FuncParamType.logical then
                  ERes.val (some ⟨zeroResult, p.1.Exists, [], FuncResultType.logical, false⟩)
                else ERes.val none

end

/-- evaluateSegment from ast.go: a descendant segment collects each input
node's descendants, a child segment applies the selectors to the input
nodes. -/
def evaluateSegment (e : Evaluator) (fuel : Nat) (input : List Result)
    (segment : Segment) : ERes (List Result) :=
  match segment with
  | Segment.mk t sels =>
      if t == SegmentType.descendant then collectDescendantsList e fuel sels input
      else applySelectorsToAll e fuel sels input

/-- The segment loop of Evaluate (ast.go): an empty node list after a
segment short-circuits to the empty result. -/
def evaluateSegments (e : Evaluator) (fuel : Nat) :
    List Segment → List Result → ERes (List Result)
  | [], rs => ERes.val rs
  | seg :: rest, rs =>
      ERes.bind (evaluateSegment e fuel rs seg) fun nr =>
      if nr.isEmpty then ERes.val [] else evaluateSegments e fuel rest nr

/-- Fuel Evaluate supplies: far above the recursion depth of any run the
theorems below examine (fuel only bounds call depth, not work). -/
def evalFuel (e : Evaluator) : Nat :=
  ((querySize e.query + jvalSize e.json + 8) * (jvalSize e.json + 8)) * (jvalSize e.json + 8)

/-- Evaluate from ast.go: start from the parsed root and run the segments. -/
def Evaluator.evaluate (e : Evaluator) : ERes (List Result) :=
  let root := toResult e.json
  if !root.Exists then ERes.val []
  else evaluateSegments e (evalFuel e) e.query.segments [root]

/-! ## The lexer (lexer.go)

Go walks the path text by byte offset, decoding one rune at a time; the
model walks a character list by character index, which relabels the
positions of a valid text one-to-one without changing which rune sequence
any token or checkpoint sees. -/

/-- TokenType from lexer.go. -/
inductive TokenType where
  | illegal
  | eof
  | root
  | current
  | dot
  | dotdot
  | lbracket
  | rbracket
  | comma
  | question
  | colon
  | wildcard
  | eq
  | ne
  | lt
  | le
  | gt
  | ge
  | land
  | lor
  | lnot
  | lparen
  | rparen
  | ident
  | number
  | string
  | trueLit
  | falseLit
  | nullLit
deriving DecidableEq, Repr

/-- Token from lexer.go. -/
structure Token where
  type : TokenType
  value : String
  pos : Nat
deriving DecidableEq, Repr

/-- Lexer from lexer.go: the input and the read position. -/
structure LexState where
  input : List Char
  pos : Nat
deriving Repr

/-- The substring input[start:stop] of the path text. -/
def lexSlice (input : List Char) (start stop : Nat) : String :=
  String.mk ((input.drop start).take (stop - start))

/-- isNameFirst from lexer.go; unicode.IsLetter modelled on ASCII. -/
def isNameFirst (c : Char) : Bool :=
  c = '_' ∨ c.isAlpha

/-- isNameChar from lexer.go. -/
def isNameChar (c : Char) : Bool :=
  isNameFirst c ∨ c.isDigit

/-- isFunctionNameFirst from lexer.go. -/
def isFunctionNameFirst (c : Char) : Bool :=
  'a' ≤ c ∧ c ≤ 'z'

/-- isFunctionNameChar from lexer.go. -/
def isFunctionNameChar (c : Char) : Bool :=
  isFunctionNameFirst c ∨ ('0' ≤ c ∧ c ≤ '9') ∨ c = '_'

/-- The whitespace-skipping loop of lexer.go. -/
def skipWhitespaceAux (input : List Char) : Nat → Nat → Nat
  | 0, pos => pos
  | fuel + 1, pos =>
      match input.get? pos with
      | some c =>
          if c = ' ' ∨ c = '\t' ∨ c = '\n' ∨ c = '\r' then
            skipWhitespaceAux input fuel (pos + 1)
          else pos
      | none => pos

/-- skipWhitespace from lexer.go. -/
def skipWhitespace (l : LexState) : LexState :=
  ⟨l.input, skipWhitespaceAux l.input (l.input.length + 1) l.pos⟩

/-- Length of the digit run at a position (the lexer's digit loops). -/
def digitRun (input : List Char) (pos : Nat) : Nat :=
  ((input.drop pos).takeWhile Char.isDigit).length

/-- Whether the character at a position is an ASCII digit. -/
def digitAt (input : List Char) (pos : Nat) : Bool :=
  match input.get? pos with
  | some c => c.isDigit
  | none => false

/-- readNumber from lexer.go: optional minus that must see a digit, an
integer part with no leading zero, an optional fraction and exponent each
needing at least one digit.  Malformed runs are Illegal tokens carrying
the slice read so far. -/
def readNumber (l : LexState) : Token × LexState :=
  let input := l.input
  let start := l.pos
  let p1 := if input.get? start = some '-' then start + 1 else start
  if p1 ≠ start ∧ !digitAt input p1 then
    (⟨TokenType.illegal, lexSlice input start p1, start⟩, ⟨input, p1⟩)
  else
    let intStop : Nat × Bool :=
      if input.get? p1 = some '0' then
        if digitAt input (p1 + 1) then (p1 + 1, false) else (p1 + 1, true)
      else (p1 + digitRun input p1, true)
    if !intStop.2 then
      (⟨TokenType.illegal, lexSlice input start intStop.1, start⟩, ⟨input, intStop.1⟩)
    else
      let p2 := intStop.1
      let fracStop : Nat × Bool :=
        if input.get? p2 = some '.' then
          let k := digitRun input (p2 + 1)
          if k = 0 then (p2 + 1, false) else (p2 + 1 + k, true)
        else (p2, true)
      if !fracStop.2 then
        (⟨TokenType.illegal, lexSlice input start fracStop.1, start⟩, ⟨input, fracStop.1⟩)
      else
        let p3 := fracStop.1
        let expStop : Nat × Bool :=
          if input.get? p3 = some 'e' ∨ input.get? p3 = some 'E' then
            let q := if input.get? (p3 + 1) = some '+' ∨ input.get? (p3 + 1) = some '-'
              then p3 + 2 else p3 + 1
            let k := digitRun input q
            if k = 0 then (q, false) else (q + k, true)
          else (p3, true)
        if !expStop.2 then
          (⟨TokenType.illegal, lexSlice input start expStop.1, start⟩, ⟨input, expStop.1⟩)
        else
          (⟨TokenType.number, lexSlice input start expStop.1, start⟩, ⟨input, expStop.1⟩)

/-- readIdent from lexer.go: a name-character run, with the three reserved
words as their own token types. -/
def readIdent (l : LexState) : Token × LexState :=
  let input := l.input
  let start := l.pos
  let stop := start + ((input.drop start).takeWhile isNameChar).length
  let value := lexSlice input start stop
  let tt :=
    if value == "true" then TokenType.trueLit
    else if value == "false" then TokenType.falseLit
    else if value == "null" then TokenType.nullLit
    else TokenType.ident
  (⟨tt, value, start⟩, ⟨input, stop⟩)

/-- Four hexadecimal digits at a position, as a number. -/
def hex4 (input : List Char) (pos : Nat) : Option Nat :=
  let hexDigit : Char → Option Nat := fun c =>
    if '0' ≤ c ∧ c ≤ '9' then some (c.toNat - 48)
    else if 'a' ≤ c ∧ c ≤ 'f' then some (c.toNat - 87)
    else if 'A' ≤ c ∧ c ≤ 'F' then some (c.toNat - 55)
    else none
  match input.get? pos, input.get? (pos + 1), input.get? (pos + 2), input.get? (pos + 3) with
  | some a, some b, some c, some d =>
      match hexDigit a, hexDigit b, hexDigit c, hexDigit d with
      | some x, some y, some z, some w => some (((x * 16 + y) * 16 + z) * 16 + w)
      | _, _, _, _ => none
  | _, _, _, _ => none

/-- utf16.DecodeRune: a high and a low surrogate combine, anything else is
the replacement character. -/
def decodeSurrogatePair (r1 r2 : Nat) : Char :=
  if 0xD800 ≤ r1 ∧ r1 < 0xDC00 ∧ 0xDC00 ≤ r2 ∧ r2 < 0xE000 then
    Char.ofNat (0x10000 + (r1 - 0xD800) * 0x400 + (r2 - 0xDC00))
  else Char.ofNat 0xFFFD

/-- The scanning loop of readString (lexer.go): plain characters, the
escape table, the \uXXXX escapes with surrogate-pair combination; an
unterminated string is an Illegal token carrying the raw slice, a bad
escape an Illegal token carrying the text decoded so far. -/
def readStringLoop (input : List Char) (quote : Char) (startPos : Nat) :
    Nat → Nat → List Char → Token × Nat
  | 0, pos, acc => (⟨TokenType.illegal, String.mk acc.reverse, startPos⟩, pos)
  | fuel + 1, pos, acc =>
      match input.get? pos with
      | none => (⟨TokenType.illegal, lexSlice input startPos pos, startPos⟩, pos)
      | some r =>
          if r = quote then (⟨TokenType.string, String.mk acc.reverse, startPos⟩, pos + 1)
          else if r = '\\' then
            match input.get? (pos + 1) with
            | none => (⟨TokenType.illegal, String.mk acc.reverse, startPos⟩, pos + 1)
            | some esc =>
                let pos2 := pos + 2
                if esc = 'b' then readStringLoop input quote startPos fuel pos2 ('\x08' :: acc)
                else if esc = 'f' then readStringLoop input quote startPos fuel pos2 ('\x0c' :: acc)
                else if esc = 'n' then readStringLoop input quote startPos fuel pos2 ('\n' :: acc)
                else if esc = 'r' then readStringLoop input quote startPos fuel pos2 ('\r' :: acc)
                else if esc = 't' then readStringLoop input quote startPos fuel pos2 ('\t' :: acc)
                else if esc = '/' ∨ esc = '\\' ∨ esc = '\'' ∨ esc = '"' then
                  readStringLoop input quote startPos fuel pos2 (esc :: acc)
                else if esc = 'u' then
                  if input.length < pos2 + 4 then
                    (⟨TokenType.illegal, String.mk acc.reverse, startPos⟩, pos2)
                  else
                    match hex4 input pos2 with
                    | none => (⟨TokenType.illegal, String.mk acc.reverse, startPos⟩, pos2)
                    | some r1 =>
                        let pos3 := pos2 + 4
                        if 0xD800 ≤ r1 ∧ r1 < 0xE000 then
                          if input.length < pos3 + 6 ∨
                              !(input.get? pos3 = some '\\' ∧ input.get? (pos3 + 1) = some 'u') then
                            (⟨TokenType.illegal, String.mk acc.reverse, startPos⟩, pos3)
                          else
                            match hex4 input (pos3 + 2) with
                            | none => (⟨TokenType.illegal, String.mk acc.reverse, startPos⟩, pos3)
                            | some r2 =>
                                readStringLoop input quote startPos fuel (pos3 + 6)
                                  (decodeSurrogatePair r1 r2 :: acc)
                        else readStringLoop input quote startPos fuel pos3 (Char.ofNat r1 :: acc)
                else (⟨TokenType.illegal, String.mk acc.reverse, startPos⟩, pos2)
          else readStringLoop input quote startPos fuel (pos + 1) (r :: acc)

/-- readString from lexer.go, entered at the opening quote. -/
def readString (l : LexState) : Token × LexState :=
  match l.input.get? l.pos with
  | some quote =>
      match readStringLoop l.input quote l.pos (l.input.length + 2) (l.pos + 1) [] with
      | (tok, finalPos) => (tok, ⟨l.input, finalPos⟩)
  | none => (⟨TokenType.illegal, "", l.pos⟩, l)

/-- NextToken from lexer.go. -/
def NextToken (l : LexState) : Token × LexState :=
  let l := skipWhitespace l
  let pos := l.pos
  match l.input.get? pos with
  | none => (⟨TokenType.eof, "", pos⟩, l)
  | some r =>
      let l1 : LexState := ⟨l.input, pos + 1⟩
      let l2 : LexState := ⟨l.input, pos + 2⟩
      if r = '$' then (⟨TokenType.root, "$", pos⟩, l1)
      else if r = '@' then (⟨TokenType.current, "@", pos⟩, l1)
      else if r = '.' then
        if l.input.get? (pos + 1) = some '.' then (⟨TokenType.dotdot, "..", pos⟩, l2)
        else (⟨TokenType.dot, ".", pos⟩, l1)
      else if r = '[' then (⟨TokenType.lbracket, "[", pos⟩, l1)
      else if r = ']' then (⟨TokenType.rbracket, "]", pos⟩, l1)
      else if r = ',' then (⟨TokenType.comma, ",", pos⟩, l1)
      else if r = ':' then (⟨TokenType.colon, ":", pos⟩, l1)
      else if r = '?' then (⟨TokenType.question, "?", pos⟩, l1)
      else if r = '*' then (⟨TokenType.wildcard, "*", pos⟩, l1)
      else if r = '(' then (⟨TokenType.lparen, "(", pos⟩, l1)
      else if r = ')' then (⟨TokenType.rparen, ")", pos⟩, l1)
      else if r = '!' then
        if l.input.get? (pos + 1) = some '=' then (⟨TokenType.ne, "!=", pos⟩, l2)
        else (⟨TokenType.lnot, "!", pos⟩, l1)
      else if r = '=' then
        if l.input.get? (pos + 1) = some '=' then (⟨TokenType.eq, "==", pos⟩, l2)
        else (⟨TokenType.illegal, "=", pos⟩, l1)
      else if r = '<' then
        if l.input.get? (pos + 1) = some '=' then (⟨TokenType.le, "<=", pos⟩, l2)
        else (⟨TokenType.lt, "<", pos⟩, l1)
      else if r = '>' then
        if l.input.get? (pos + 1) = some '=' then (⟨TokenType.ge, ">=", pos⟩, l2)
        else (⟨TokenType.gt, ">", pos⟩, l1)
      else if r = '&' then
        if l.input.get? (pos + 1) = some '&' then (⟨TokenType.land, "&&", pos⟩, l2)
        else (⟨TokenType.illegal, String.singleton r, pos⟩, l1)
      else if r = '|' then
        if l.input.get? (pos + 1) = some '|' then (⟨TokenType.lor, "||", pos⟩, l2)
        else (⟨TokenType.illegal, String.singleton r, pos⟩, l1)
      else if r = '"' ∨ r = '\'' then readString l
      else if r = '-' ∨ r.isDigit then readNumber l
      else if isNameFirst r then readIdent l
      else (⟨TokenType.illegal, String.singleton r, pos⟩, l1)

/-! ## The parser (parser.go)

Parser state is the lexer plus the two-token lookahead {curr, peek}.
Recursion is driven by a fuel each call decrements, so each equation is
structural; Parse supplies fuel well above the recursion depth any path
text can need.  Go's descriptive error strings are abbreviated to short
constants: every claim reads only success or failure of a parse. -/

/-- Parser from parser.go: lexer, current token, peek token. -/
structure PState where
  lex : LexState
  curr : Token
  peek : Token
deriving Repr

/-- advance from parser.go: shift peek into curr, lex the next token. -/
def pAdvance (p : PState) : PState :=
  match NextToken p.lex with
  | (t, lex') => ⟨lex', p.peek, t⟩

/-- expectToken from parser.go. -/
def expectToken (p : PState) (tt : TokenType) : Except String Unit :=
  if p.curr.type = tt then Except.ok () else Except.error "unexpected token"

/-- parseInteger from parser.go: fmt.Sscanf with the %d verb reads an
optional sign and the digit prefix, failing only when no digit follows. -/
def parseInteger (s : String) : Except String Int :=
  match s.toList with
  | '-' :: rest =>
      match rest.takeWhile Char.isDigit with
      | [] => Except.error "invalid integer"
      | ds => Except.ok (-(digitsToNat ds : Int))
  | '+' :: rest =>
      match rest.takeWhile Char.isDigit with
      | [] => Except.error "invalid integer"
      | ds => Except.ok (digitsToNat ds : Int)
  | cs =>
      match cs.takeWhile Char.isDigit with
      | [] => Except.error "invalid integer"
      | ds => Except.ok (digitsToNat ds : Int)

/-- parseComparisonOp from parser.go. -/
def parseComparisonOp (p : PState) : Except String (CompOp × PState) :=
  match p.curr.type with
  | TokenType.eq => Except.ok (CompOp.eq, pAdvance p)
  | TokenType.ne => Except.ok (CompOp.ne, pAdvance p)
  | TokenType.lt => Except.ok (CompOp.lt, pAdvance p)
  | TokenType.le => Except.ok (CompOp.le, pAdvance p)
  | TokenType.gt => Except.ok (CompOp.gt, pAdvance p)
  | TokenType.ge => Except.ok (CompOp.ge, pAdvance p)
  | _ => Except.error "expected comparison operator"

/-- parseLiteral from parser.go. -/
def parseLiteral (p : PState) : Except String (LiteralValue × PState) :=
  match p.curr.type with
  | TokenType.string => Except.ok (⟨LiteralType.string, p.curr.value⟩, pAdvance p)
  | TokenType.number => Except.ok (⟨LiteralType.number, p.curr.value⟩, pAdvance p)
  | TokenType.trueLit => Except.ok (⟨LiteralType.true, p.curr.value⟩, pAdvance p)
  | TokenType.falseLit => Except.ok (⟨LiteralType.false, p.curr.value⟩, pAdvance p)
  | TokenType.nullLit => Except.ok (⟨LiteralType.null, p.curr.value⟩, pAdvance p)
  | _ => Except.error "expected literal"

/-- parseIndexSelector from parser.go. -/
def parseIndexSelector (p : PState) : Except String (Selector × PState) := do
  let _ ← expectToken p TokenType.number
  let index ← parseInteger p.curr.value
  Except.ok (Selector.index index, pAdvance p)

/-- parseSliceSelector from parser.go: optional start, required colon,
optional end, optional second colon that then requires a step number. -/
def parseSliceSelector (p : PState) : Except String (Selector × PState) := do
  let startState ←
    if p.curr.type = TokenType.number then do
      let v ← parseInteger p.curr.value
      Except.ok ((some v : Option Int), pAdvance p)
    else Except.ok ((none : Option Int), p)
  let p := startState.2
  let _ ← expectToken p TokenType.colon
  let p := pAdvance p
  let endState ←
    if p.curr.type = TokenType.number then do
      let v ← parseInteger p.curr.value
      Except.ok ((some v : Option Int), pAdvance p)
    else Except.ok ((none : Option Int), p)
  let p := endState.2
  let stepState ←
    if p.curr.type = TokenType.colon then do
      let p := pAdvance p
      if p.curr.type ≠ TokenType.number then Except.error "expected step number"
      else do
        let v ← parseInteger p.curr.value
        Except.ok ((some v : Option Int), pAdvance p)
    else Except.ok ((none : Option Int), p)
  Except.ok (Selector.slice ⟨startState.1, endState.1, stepState.1⟩, stepState.2)

/-- parseSingularSegment from parser.go: a dot-name or a bracketed name or
index. -/
def parseSingularSegment (p : PState) : Except String (SingularSegment × PState) :=
  match p.curr.type with
  | TokenType.dot =>
      let p := pAdvance p
      (match p.curr.type with
       | TokenType.ident => Except.ok (⟨SingularSegmentType.name, p.curr.value, 0⟩, pAdvance p)
       | TokenType.nullLit => Except.ok (⟨SingularSegmentType.name, p.curr.value, 0⟩, pAdvance p)
       | TokenType.trueLit => Except.ok (⟨SingularSegmentType.name, p.curr.value, 0⟩, pAdvance p)
       | TokenType.falseLit => Except.ok (⟨SingularSegmentType.name, p.curr.value, 0⟩, pAdvance p)
       | _ => Except.error "expected identifier after dot")
  | TokenType.lbracket =>
      let p := pAdvance p
      (match p.curr.type with
       | TokenType.string => do
           let seg : SingularSegment := ⟨SingularSegmentType.name, p.curr.value, 0⟩
           let p := pAdvance p
           let _ ← expectToken p TokenType.rbracket
           Except.ok (seg, pAdvance p)
       | TokenType.number => do
           let index ← parseInteger p.curr.value
           let seg : SingularSegment := ⟨SingularSegmentType.index, "", index⟩
           let p := pAdvance p
           let _ ← expectToken p TokenType.rbracket
           Except.ok (seg, pAdvance p)
       | _ => Except.error "expected string or number in singular query segment")
  | _ => Except.error "expected dot or bracket"

/-- The segment loop of parseSingularQuery. -/
def parseSingularSegmentsLoop :
    Nat → PState → List SingularSegment → Except String (List SingularSegment × PState)
  | 0, _, _ => Except.error "out of fuel"
  | fuel + 1, p, acc =>
      if p.curr.type = TokenType.dot ∨ p.curr.type = TokenType.lbracket then do
        let (seg, p') ← parseSingularSegment p
        parseSingularSegmentsLoop fuel p' (acc ++ [seg])
      else Except.ok (acc, p)

/-- parseSingularQuery from parser.go. -/
def parseSingularQuery (fuel : Nat) (p : PState) :
    Except String (SingularQuery × PState) := do
  let relState ←
    match p.curr.type with
    | TokenType.root => Except.ok (false, pAdvance p)
    | TokenType.current => Except.ok (true, pAdvance p)
    | _ => Except.error "expected root or current identifier"
  let (segs, p') ← parseSingularSegmentsLoop fuel relState.2 []
  Except.ok (⟨relState.1, segs⟩, p')

/-- isOperator from parser.go: a logical or comparison operator token. -/
def isOperator (t : TokenType) : Bool :=
  t = TokenType.lor ∨ t = TokenType.land ∨ t = TokenType.eq ∨ t = TokenType.ne ∨
    t = TokenType.lt ∨ t = TokenType.le ∨ t = TokenType.gt ∨ t = TokenType.ge

/-- isValidFunctionName from parser.go: first character a lowercase letter,
the rest function-name characters. -/
def isValidFunctionName (name : String) : Bool :=
  match name.toList with
  | [] => true
  | c :: rest => isFunctionNameFirst c ∧ isFunctionNameChar c ∧ rest.all isFunctionNameChar

mutual

/-- parseQuery from parser.go: a root identifier then segments to EOF. -/
def parseQuery : Nat → PState → Except String (Query × PState)
  | 0, _ => Except.error "out of fuel"
  | fuel + 1, p => do
      let _ ← expectToken p TokenType.root
      let p := pAdvance p
      let (segs, p') ← parseQueryLoop fuel p []
      Except.ok (⟨segs⟩, p')

/-- The segment loop of parseQuery. -/
def parseQueryLoop : Nat → PState → List Segment → Except String (List Segment × PState)
  | 0, _, _ => Except.error "out of fuel"
  | fuel + 1, p, acc =>
      if p.curr.type ≠ TokenType.eof then do
        let (seg, p') ← parseSegment fuel p
        parseQueryLoop fuel p' (acc ++ [seg])
      else Except.ok (acc, p)

/-- parseSegment from parser.go. -/
def parseSegment : Nat → PState → Except String (Segment × PState)
  | 0, _ => Except.error "out of fuel"
  | fuel + 1, p =>
      match p.curr.type with
      | TokenType.dotdot => parseDescendantSegment fuel (pAdvance p)
      | TokenType.dot => parseDotSegment fuel (pAdvance p)
      | TokenType.lbracket => parseBracketSegment fuel SegmentType.child p
      | _ => Except.error "expected dot or descendant or bracket"

/-- parseDescendantSegment from parser.go (called after the two dots). -/
def parseDescendantSegment : Nat → PState → Except String (Segment × PState)
  | 0, _ => Except.error "out of fuel"
  | fuel + 1, p =>
      match p.curr.type with
      | TokenType.lbracket => parseBracketSegment fuel SegmentType.descendant p
      | TokenType.wildcard =>
          Except.ok (Segment.mk SegmentType.descendant [Selector.wildcard], pAdvance p)
      | TokenType.ident =>
          Except.ok (Segment.mk SegmentType.descendant [Selector.name p.curr.value], pAdvance p)
      | TokenType.nullLit =>
          Except.ok (Segment.mk SegmentType.descendant [Selector.name p.curr.value], pAdvance p)
      | TokenType.trueLit =>
          Except.ok (Segment.mk SegmentType.descendant [Selector.name p.curr.value], pAdvance p)
      | TokenType.falseLit =>
          Except.ok (Segment.mk SegmentType.descendant [Selector.name p.curr.value], pAdvance p)
      | _ => Except.error "unexpected token after descendant dots"

/-- parseDotSegment from parser.go (called after the dot). -/
def parseDotSegment : Nat → PState → Except String (Segment × PState)
  | 0, _ => Except.error "out of fuel"
  | _fuel + 1, p =>
      match p.curr.type with
      | TokenType.wildcard =>
          Except.ok (Segment.mk SegmentType.child [Selector.wildcard], pAdvance p)
      | TokenType.ident =>
          Except.ok (Segment.mk SegmentType.child [Selector.name p.curr.value], pAdvance p)
      | TokenType.nullLit =>
          Except.ok (Segment.mk SegmentType.child [Selector.name p.curr.value], pAdvance p)
      | TokenType.trueLit =>
          Except.ok (Segment.mk SegmentType.child [Selector.name p.curr.value], pAdvance p)
      | TokenType.falseLit =>
          Except.ok (Segment.mk SegmentType.child [Selector.name p.curr.value], pAdvance p)
      | _ => Except.error "unexpected token after dot"

/-- parseBracketSegment from parser.go. -/
def parseBracketSegment : Nat → SegmentType → PState → Except String (Segment × PState)
  | 0, _, _ => Except.error "out of fuel"
  | fuel + 1, segType, p => do
      let _ ← expectToken p TokenType.lbracket
      let p := pAdvance p
      let (selectors, p') ← parseSelectors fuel p
      let _ ← expectToken p' TokenType.rbracket
      Except.ok (Segment.mk segType selectors, pAdvance p')

/-- parseSelectors from parser.go: one selector then comma-separated more. -/
def parseSelectors : Nat → PState → Except String (List Selector × PState)
  | 0, _ => Except.error "out of fuel"
  | fuel + 1, p => do
      let (sel, p') ← parseSelector fuel p
      parseSelectorsLoop fuel p' [sel]

/-- The comma loop of parseSelectors. -/
def parseSelectorsLoop :
    Nat → PState → List Selector → Except String (List Selector × PState)
  | 0, _, _ => Except.error "out of fuel"
  | fuel + 1, p, acc =>
      if p.curr.type = TokenType.comma then do
        let (sel, p') ← parseSelector fuel (pAdvance p)
        parseSelectorsLoop fuel p' (acc ++ [sel])
      else Except.ok (acc, p)

/-- parseSelector from parser.go. -/
def parseSelector : Nat → PState → Except String (Selector × PState)
  | 0, _ => Except.error "out of fuel"
  | fuel + 1, p =>
      match p.curr.type with
      | TokenType.string => Except.ok (Selector.name p.curr.value, pAdvance p)
      | TokenType.wildcard => Except.ok (Selector.wildcard, pAdvance p)
      | TokenType.number =>
          if p.peek.type = TokenType.colon then parseSliceSelector p
          else parseIndexSelector p
      | TokenType.colon => parseSliceSelector p
      | TokenType.question => parseFilterSelector fuel p
      | _ => Except.error "unexpected token in selector"

/-- parseFilterSelector from parser.go. -/
def parseFilterSelector : Nat → PState → Except String (Selector × PState)
  | 0, _ => Except.error "out of fuel"
  | fuel + 1, p => do
      let _ ← expectToken p TokenType.question
      let p := pAdvance p
      let (expr, p') ← parseLogicalExpr fuel p
      Except.ok (Selector.filter expr, p')

/-- parseLogicalExpr from parser.go. -/
def parseLogicalExpr : Nat → PState → Except String (FilterExpr × PState)
  | 0, _ => Except.error "out of fuel"
  | fuel + 1, p => parseLogicalOrExpr fuel p

/-- parseLogicalOrExpr from parser.go. -/
def parseLogicalOrExpr : Nat → PState → Except String (FilterExpr × PState)
  | 0, _ => Except.error "out of fuel"
  | fuel + 1, p => do
      let (left, p') ← parseLogicalAndExpr fuel p
      parseOrLoop fuel p' left

/-- The chaining loop of parseLogicalOrExpr. -/
def parseOrLoop : Nat → PState → FilterExpr → Except String (FilterExpr × PState)
  | 0, _, _ => Except.error "out of fuel"
  | fuel + 1, p, left =>
      if p.curr.type = TokenType.lor then do
        let (right, p') ← parseLogicalAndExpr fuel (pAdvance p)
        parseOrLoop fuel p' (FilterExpr.lor left right)
      else Except.ok (left, p)

/-- parseLogicalAndExpr from parser.go. -/
def parseLogicalAndExpr : Nat → PState → Except String (FilterExpr × PState)
  | 0, _ => Except.error "out of fuel"
  | fuel + 1, p => do
      let (left, p') ← parseBasicExpr fuel p
      parseAndLoop fuel p' left

/-- The chaining loop of parseLogicalAndExpr. -/
def parseAndLoop : Nat → PState → FilterExpr → Except String (FilterExpr × PState)
  | 0, _, _ => Except.error "out of fuel"
  | fuel + 1, p, left =>
      if p.curr.type = TokenType.land then do
        let (right, p') ← parseBasicExpr fuel (pAdvance p)
        parseAndLoop fuel p' (FilterExpr.land left right)
      else Except.ok (left, p)

/-- parseBasicExpr from parser.go: a bang before a parenthesis is a negated
parenthesized expression, a bang otherwise a negated test; a parenthesis
is a parenthesized expression; anything else goes through the
comparison-then-test fallback. -/
def parseBasicExpr : Nat → PState → Except String (FilterExpr × PState)
  | 0, _ => Except.error "out of fuel"
  | fuel + 1, p =>
      if p.curr.type = TokenType.lnot then
        if p.peek.type = TokenType.lparen then parseParenExpr fuel p
        else do
          let (test, p') ← parseTestExpr fuel (pAdvance p)
          Except.ok (FilterExpr.lnot (FilterExpr.test test), p')
      else if p.curr.type = TokenType.lparen then parseParenExpr fuel p
      else parseBasicExprWithFallback fuel p

/-- parseBasicExprWithFallback from parser.go: save {curr, peek, lexer
offset}, try a comparison, and on failure restore the checkpoint and parse
the same span as a test expression. -/
def parseBasicExprWithFallback : Nat → PState → Except String (FilterExpr × PState)
  | 0, _ => Except.error "out of fuel"
  | fuel + 1, p =>
      let savedCurr := p.curr
      let savedPeek := p.peek
      let savedLexerPos := p.lex.pos
      match parseComparisonExpr fuel p with
      | Except.ok (comp, p') => Except.ok (FilterExpr.comparison comp, p')
      | Except.error _ =>
          let restored : PState := ⟨⟨p.lex.input, savedLexerPos⟩, savedCurr, savedPeek⟩
          match parseTestExpr fuel restored with
          | Except.ok (test, p') => Except.ok (FilterExpr.test test, p')
          | Except.error e => Except.error e

/-- parseParenExpr from parser.go. -/
def parseParenExpr : Nat → PState → Except String (FilterExpr × PState)
  | 0, _ => Except.error "out of fuel"
  | fuel + 1, p => do
      let hasNot := p.curr.type = TokenType.lnot
      let p := if hasNot then pAdvance p else p
      if p.curr.type ≠ TokenType.lparen then Except.error "expected opening parenthesis"
      else do
        let (expr, p') ← parseLogicalExpr fuel (pAdvance p)
        if p'.curr.type ≠ TokenType.rparen then Except.error "expected closing parenthesis"
        else if hasNot then Except.ok (FilterExpr.lnot expr, pAdvance p')
        else Except.ok (FilterExpr.paren expr, pAdvance p')

/-- parseComparisonExpr from parser.go. -/
def parseComparisonExpr : Nat → PState → Except String (Comparison × PState)
  | 0, _ => Except.error "out of fuel"
  | fuel + 1, p => do
      let (left, p1) ← parseComparable fuel p
      let (op, p2) ← parseComparisonOp p1
      let (right, p3) ← parseComparable fuel p2
      Except.ok (Comparison.mk left op right, p3)

/-- parseComparable from parser.go: a literal, a singular query, a function
call, or a bare identifier demoted to a string literal. -/
def parseComparable : Nat → PState → Except String (Comparable × PState)
  | 0, _ => Except.error "out of fuel"
  | fuel + 1, p =>
      match p.curr.type with
      | TokenType.string => do
          let (lit, p') ← parseLiteral p
          Except.ok (Comparable.literal lit, p')
      | TokenType.number => do
          let (lit, p') ← parseLiteral p
          Except.ok (Comparable.literal lit, p')
      | TokenType.trueLit => do
          let (lit, p') ← parseLiteral p
          Except.ok (Comparable.literal lit, p')
      | TokenType.falseLit => do
          let (lit, p') ← parseLiteral p
          Except.ok (Comparable.literal lit, p')
      | TokenType.nullLit => do
          let (lit, p') ← parseLiteral p
          Except.ok (Comparable.literal lit, p')
      | TokenType.root => do
          let (q, p') ← parseSingularQuery fuel p
          Except.ok (Comparable.singularQuery q, p')
      | TokenType.current => do
          let (q, p') ← parseSingularQuery fuel p
          Except.ok (Comparable.singularQuery q, p')
      | TokenType.ident =>
          if p.peek.type = TokenType.lparen then do
            let (fn, p') ← parseFunctionExpr fuel p
            Except.ok (Comparable.funcExpr fn, p')
          else
            Except.ok (Comparable.literal ⟨LiteralType.string, p.curr.value⟩, pAdvance p)
      | _ => Except.error "unexpected token in comparable"

/-- parseTestExpr from parser.go. -/
def parseTestExpr : Nat → PState → Except String (TestExpr × PState)
  | 0, _ => Except.error "out of fuel"
  | fuel + 1, p =>
      match p.curr.type with
      | TokenType.root => do
          let (q, p') ← parseFilterQuery fuel p
          Except.ok (TestExpr.filterQuery q, p')
      | TokenType.current => do
          let (q, p') ← parseFilterQuery fuel p
          Except.ok (TestExpr.filterQuery q, p')
      | TokenType.ident =>
          if p.peek.type = TokenType.lparen then do
            let (fn, p') ← parseFunctionExpr fuel p
            Except.ok (TestExpr.funcExpr fn, p')
          else do
            let (q, p') ← parseFilterQuery fuel p
            Except.ok (TestExpr.filterQuery q, p')
      | _ => Except.error "expected filter query or function expression"

/-- parseFilterQuery from parser.go: an explicit root or current-node
identifier, or an implicit current-node reference; then segments while a
dot, double-dot or bracket follows. -/
def parseFilterQuery : Nat → PState → Except String (FilterQuery × PState)
  | 0, _ => Except.error "out of fuel"
  | fuel + 1, p =>
      let relState : Bool × PState :=
        match p.curr.type with
        | TokenType.root => (false, pAdvance p)
        | TokenType.current => (true, pAdvance p)
        | _ => (true, p)
      match parseFilterQueryLoop fuel relState.2 [] with
      | Except.ok (segs, p') => Except.ok (FilterQuery.mk relState.1 segs, p')
      | Except.error e => Except.error e

/-- The segment loop of parseFilterQuery. -/
def parseFilterQueryLoop :
    Nat → PState → List Segment → Except String (List Segment × PState)
  | 0, _, _ => Except.error "out of fuel"
  | fuel + 1, p, acc =>
      if p.curr.type = TokenType.dot ∨ p.curr.type = TokenType.dotdot ∨
          p.curr.type = TokenType.lbracket then do
        let (seg, p') ← parseSegment fuel p
        parseFilterQueryLoop fuel p' (acc ++ [seg])
      else Except.ok (acc, p)

/-- parseFunctionExpr from parser.go. -/
def parseFunctionExpr : Nat → PState → Except String (FuncCall × PState)
  | 0, _ => Except.error "out of fuel"
  | fuel + 1, p => do
      let _ ← expectToken p TokenType.ident
      let name := p.curr.value
      if !isValidFunctionName name then Except.error "invalid function name"
      else do
        let p := pAdvance p
        let _ ← expectToken p TokenType.lparen
        let p := pAdvance p
        let argsState ←
          if p.curr.type ≠ TokenType.rparen then do
            let (arg, p') ← parseFuncArg fuel p
            parseFuncArgsLoop fuel p' [arg]
          else Except.ok (([] : List FuncArg), p)
        let _ ← expectToken argsState.2 TokenType.rparen
        Except.ok (FuncCall.mk name argsState.1, pAdvance argsState.2)

/-- The comma loop of parseFunctionExpr. -/
def parseFuncArgsLoop :
    Nat → PState → List FuncArg → Except String (List FuncArg × PState)
  | 0, _, _ => Except.error "out of fuel"
  | fuel + 1, p, acc =>
      if p.curr.type = TokenType.comma then do
        let (arg, p') ← parseFuncArg fuel (pAdvance p)
        parseFuncArgsLoop fuel p' (acc ++ [arg])
      else Except.ok (acc, p)

/-- parseFuncArg from parser.go. -/
def parseFuncArg : Nat → PState → Except String (FuncArg × PState)
  | 0, _ => Except.error "out of fuel"
  | fuel + 1, p =>
      match p.curr.type with
      | TokenType.string => do
          let (lit, p') ← parseLiteral p
          Except.ok (FuncArg.literal lit, p')
      | TokenType.number => do
          let (lit, p') ← parseLiteral p
          Except.ok (FuncArg.literal lit, p')
      | TokenType.trueLit => do
          let (lit, p') ← parseLiteral p
          Except.ok (FuncArg.literal lit, p')
      | TokenType.falseLit => do
          let (lit, p') ← parseLiteral p
          Except.ok (FuncArg.literal lit, p')
      | TokenType.nullLit => do
          let (lit, p') ← parseLiteral p
          Except.ok (FuncArg.literal lit, p')
      | TokenType.root => parseFuncArgRootOrCurrent fuel p
      | TokenType.current => parseFuncArgRootOrCurrent fuel p
      | TokenType.lnot => do
          let (expr, p') ← parseLogicalExpr fuel p
          Except.ok (FuncArg.logicalExpr expr, p')
      | TokenType.lparen => do
          let (expr, p') ← parseLogicalExpr fuel p
          Except.ok (FuncArg.logicalExpr expr, p')
      | TokenType.ident =>
          if p.peek.type = TokenType.lparen then do
            let (fn, p') ← parseFunctionExpr fuel p
            Except.ok (FuncArg.funcExpr fn, p')
          else do
            let (expr, p') ← parseLogicalExpr fuel p
            Except.ok (FuncArg.logicalExpr expr, p')
      | _ => Except.error "unexpected token in function argument"

/-- parseFuncArgRootOrCurrent from parser.go: try a filter query from the
checkpoint; when an operator follows it, or it fails, restore and parse a
logical expression instead. -/
def parseFuncArgRootOrCurrent : Nat → PState → Except String (FuncArg × PState)
  | 0, _ => Except.error "out of fuel"
  | fuel + 1, p =>
      let savedCurr := p.curr
      let savedPeek := p.peek
      let savedLexerPos := p.lex.pos
      let restored : PState := ⟨⟨p.lex.input, savedLexerPos⟩, savedCurr, savedPeek⟩
      match parseFilterQuery fuel p with
      | Except.ok (query, p') =>
          if isOperator p'.curr.type then do
            let (expr, p'') ← parseLogicalExpr fuel restored
            Except.ok (FuncArg.logicalExpr expr, p'')
          else Except.ok (FuncArg.filterQuery query, p')
      | Except.error _ => do
          let (expr, p'') ← parseLogicalExpr fuel restored
          Except.ok (FuncArg.logicalExpr expr, p'')

end

/-- Fuel Parse supplies: well above the parser's recursion depth on its
input (each descent step consumes fuel once; nesting is bounded by the
text length times the grammar's production chain length). -/
def defaultParseFuel (path : String) : Nat :=
  path.length * 16 + 64

/-- Parse from parser.go: make the lexer, advance twice to fill curr and
peek, and parse a query. -/
def Parse (path : String) : Except String Query :=
  let l0 : LexState := ⟨path.toList, 0⟩
  match NextToken l0 with
  | (t1, l1) =>
      match NextToken l1 with
      | (t2, l2) =>
          match parseQuery (defaultParseFuel path) ⟨l2, t1, t2⟩ with
          | Except.ok (q, _) => Except.ok q
          | Except.error e => Except.error e

/-! ## The convenience surface (jsonpath.go)

Get and GetMany take the document through the accessor (a JVal here) and
the path text. -/

/-- NewEvaluator from ast.go, with the custom registry empty as at process
start. -/
def NewEvaluator (json : JVal) (query : Query) : Evaluator :=
  ⟨json, query, []⟩

/-- GetMany from jsonpath.go: nil on a parse error, else all results. -/
def GetMany (json : JVal) (path : String) : ERes (List Result) :=
  match Parse path with
  | Except.error _ => ERes.val []
  | Except.ok query => (NewEvaluator json query).evaluate

/-- Get from jsonpath.go: the zero Result on a parse error or an empty
result list, else the first result. -/
def Get (json : JVal) (path : String) : ERes Result :=
  match Parse path with
  | Except.error _ => ERes.val zeroResult
  | Except.ok query =>
      ERes.bind (NewEvaluator json query).evaluate fun results =>
      match results with
      | [] => ERes.val zeroResult
      | r :: _ => ERes.val r

/-! ## The claims -/

set_option maxRecDepth 20000 in
/-- C1.  The slice selector does default a missing step to 1, yield the
empty nodelist on step 0, translate and clamp negative bounds, and
special-case the defaulted end under a negative step, and on non-empty
arrays the unguarded default-end downward loop reverses the array; but on
the EMPTY array the defaulted start -1 is clamped up to 0 and the loop
reads arr[0] of an empty array: an index-out-of-range crash where the
claim promises the (empty) reversal.  The conjuncts evaluate the code: the
full query on [] crashes, while the same query reverses a 3-element array,
and step 0 still yields the empty nodelist. -/
theorem slice_empty_array_negative_step_crashes :
    evalSliceSelector (toResult (JVal.arr [])) ⟨none, none, some (-1)⟩ = ERes.crash ∧
    GetMany (JVal.arr []) "$[::-1]" = ERes.crash ∧
    GetMany (JVal.arr [JVal.str "a", JVal.str "b", JVal.str "c"]) "$[::-1]" =
      ERes.val [toResult (JVal.str "c"), toResult (JVal.str "b"), toResult (JVal.str "a")] ∧
    GetMany (JVal.arr [JVal.str "a", JVal.str "b", JVal.str "c"]) "$[::0]" = ERes.val [] :=
  ⟨rfl, rfl, rfl, rfl⟩

set_option maxRecDepth 20000 in
/-- C2.  Under compareLess a number and a string (or any pairing that is
not two numbers or two strings) are unordered, so < and <= are false as
the claim says; but the code computes > as neither-less-nor-equal and >=
as not-less, so on the document [1] the filters with > and >= against the
string literal select the number: the claim's "each of < <= > >=
evaluates to false" fails for > and >=. -/
theorem mixed_type_ordering_gt_ge_true :
    GetMany (JVal.arr [JVal.num "1" (GoNum.ofNat 1)]) "$[?@ > 'a']" =
      ERes.val [toResult (JVal.num "1" (GoNum.ofNat 1))] ∧
    GetMany (JVal.arr [JVal.num "1" (GoNum.ofNat 1)]) "$[?@ >= 'a']" =
      ERes.val [toResult (JVal.num "1" (GoNum.ofNat 1))] ∧
    GetMany (JVal.arr [JVal.num "1" (GoNum.ofNat 1)]) "$[?@ < 'a']" = ERes.val [] ∧
    GetMany (JVal.arr [JVal.num "1" (GoNum.ofNat 1)]) "$[?@ <= 'a']" = ERes.val [] :=
  ⟨rfl, rfl, rfl, rfl⟩

set_option maxRecDepth 20000 in
/-- C3.  When both comparables evaluate and at least one is Nothing
(Result.Exists false), a comparison is: for == that both are Nothing, for
!= that not both are Nothing, and false for every ordering operator. -/
theorem comparison_nothing_operand_semantics (e : Evaluator) (fuel : Nat)
    (c : Comparison) (r lv rv : Result)
    (hl : evalComparable e fuel c.left r = ERes.val lv)
    (hr : evalComparable e fuel c.right r = ERes.val rv)
    (h : lv.Exists = false ∨ rv.Exists = false) :
    evalComparison e (fuel + 1) c r = ERes.val
      (match c.op with
       | CompOp.eq => !lv.Exists && !rv.Exists
       | CompOp.ne => lv.Exists || rv.Exists
       | _ => false) := by
  obtain ⟨l, op, rgt⟩ := c
  simp only [Comparison.left] at hl
  simp only [Comparison.right] at hr
  cases op <;>
    simp only [evalComparison, hl, hr, ERes.bind, Comparison.op] <;>
    rcases h with h | h <;>
    simp [h, Bool.not_not]

/-- Witness for C3: the null literal on both sides is Nothing, and Nothing
== Nothing evaluates true. -/
theorem comparison_nothing_operand_semantics_check :
    evalComparison ⟨JVal.null, ⟨[]⟩, []⟩ 2
      (Comparison.mk (Comparable.literal ⟨LiteralType.null, "null"⟩) CompOp.eq
        (Comparable.literal ⟨LiteralType.null, "null"⟩)) zeroResult = ERes.val true :=
  comparison_nothing_operand_semantics ⟨JVal.null, ⟨[]⟩, []⟩ 1
    (Comparison.mk (Comparable.literal ⟨LiteralType.null, "null"⟩) CompOp.eq
      (Comparable.literal ⟨LiteralType.null, "null"⟩))
    zeroResult (evalLiteral ⟨LiteralType.null, "null"⟩)
    (evalLiteral ⟨LiteralType.null, "null"⟩) rfl rfl (Or.inl rfl)

/-- The parser state at the filter expression of the path text $[?@.a],
as parseFilterSelector hands it to parseLogicalExpr: current token @ at
offset 3, peek token the dot at offset 4, lexer about to read offset 5. -/
def fallbackDemoState : PState :=
  ⟨⟨"$[?@.a]".toList, 5⟩, ⟨TokenType.current, "@", 3⟩, ⟨TokenType.dot, ".", 4⟩⟩

/-- The initial parser state Parse builds for a path text (two advances
from the fresh lexer). -/
def parseInitState (path : String) : PState :=
  let l0 : LexState := ⟨path.toList, 0⟩
  match NextToken l0 with
  | (t1, l1) =>
      match NextToken l1 with
      | (t2, l2) => ⟨l2, t1, t2⟩

/-- C4.  A basic filter expression starting with @ (or the root symbol) is
first attempted as a comparison; the attempt on the span of $[?@.a] fails
exactly because no comparison operator follows the comparable, and
parseBasicExprWithFallback, whose definition restores the saved
{curr, peek, lexer offset} checkpoint, reparses the same span as an
existence test; end to end, the path with <1 parses to a comparison node
and the bare path to a test node.  The demo state is the state three
advances into the parse of $[?@.a], i.e. the state the filter production
receives.  The last conjunct is the mechanism in general: whenever the
comparison attempt fails, the fallback is exactly a test-expression parse
of the entry state, i.e. the checkpoint restores every component of the
parser state. -/
theorem parser_comparison_test_backtracking :
    Parse "$[?@.a<1]" = Except.ok ⟨[Segment.mk SegmentType.child
      [Selector.filter (FilterExpr.comparison (Comparison.mk
        (Comparable.singularQuery ⟨true, [⟨SingularSegmentType.name, "a", 0⟩]⟩)
        CompOp.lt
        (Comparable.literal ⟨LiteralType.number, "1"⟩)))]]⟩ ∧
    Parse "$[?@.a]" = Except.ok ⟨[Segment.mk SegmentType.child
      [Selector.filter (FilterExpr.test (TestExpr.filterQuery (FilterQuery.mk true
        [Segment.mk SegmentType.child [Selector.name "a"]])))]]⟩ ∧
    fallbackDemoState = pAdvance (pAdvance (pAdvance (parseInitState "$[?@.a]"))) ∧
    parseComparisonExpr 64 fallbackDemoState =
      Except.error "expected comparison operator" ∧
    parseBasicExprWithFallback 65 fallbackDemoState =
      Except.ok (FilterExpr.test (TestExpr.filterQuery (FilterQuery.mk true
        [Segment.mk SegmentType.child [Selector.name "a"]])),
        ⟨⟨"$[?@.a]".toList, 7⟩, ⟨TokenType.rbracket, "]", 6⟩, ⟨TokenType.eof, "", 7⟩⟩) ∧
    (∀ (fuel : Nat) (p : PState) (err : String),
      parseComparisonExpr fuel p = Except.error err →
      parseBasicExprWithFallback (fuel + 1) p =
        (match parseTestExpr fuel p with
         | Except.ok (test, p') => Except.ok (FilterExpr.test test, p')
         | Except.error e => Except.error e)) :=
  ⟨rfl, rfl, rfl, rfl, rfl, by
    intro fuel p err h
    obtain ⟨⟨input, pos⟩, curr, peek⟩ := p
    simp [parseBasicExprWithFallback, h]⟩

set_option maxRecDepth 20000 in
/-- C5.  The null literal evaluates to the zero-Raw Result whose Exists is
false, i.e. exactly Nothing, while a JSON null read from the document has
Raw set and exists: so @.a == null is FALSE on a document whose member a
holds JSON null (the claim says true there) and TRUE when a is missing
(the claim says the comparison distinguishes the two). -/
theorem null_literal_indistinguishable_from_nothing :
    GetMany (JVal.arr [JVal.obj [("a", JVal.null)]]) "$[?@.a == null]" = ERes.val [] ∧
    GetMany (JVal.arr [JVal.obj [("b", JVal.num "1" (GoNum.ofNat 1))]]) "$[?@.a == null]" =
      ERes.val [toResult (JVal.obj [("b", JVal.num "1" (GoNum.ofNat 1))])] ∧
    (evalLiteral ⟨LiteralType.null, "null"⟩).Exists = false ∧
    (toResult JVal.null).Exists = true :=
  ⟨rfl, rfl, rfl, rfl⟩

set_option maxRecDepth 20000 in
/-- C6.  On a document whose object has one member (with the empty string
as its name) the descendant wildcard returns no nodes at all, because
MapKVList stops at an empty member name: the claim's count (one node per
member) and visit of every node fail there.  On an empty-key-free document
the pre-order count does hold, as the second conjunct shows: one object
member (the array) before its two elements. -/
theorem descendant_wildcard_drops_empty_key_members :
    GetMany (JVal.obj [("", JVal.num "1" (GoNum.ofNat 1))]) "$..*" = ERes.val [] ∧
    GetMany (JVal.obj [("a", JVal.arr [JVal.num "1" (GoNum.ofNat 1), JVal.num "2" (GoNum.ofNat 2)])]) "$..*" =
      ERes.val [toResult (JVal.arr [JVal.num "1" (GoNum.ofNat 1), JVal.num "2" (GoNum.ofNat 2)]),
        toResult (JVal.num "1" (GoNum.ofNat 1)), toResult (JVal.num "2" (GoNum.ofNat 2))] :=
  ⟨rfl, rfl⟩

set_option maxRecDepth 20000 in
set_option maxRecDepth 20000 in
/-- C7.  A function call whose name has no registered signature, or whose
call fails checkFunctionWellTyped for its position (the arity equality;
Logical-or-Nodes declared return in test position; Value declared return
in comparable position), makes the containing test expression false and
the containing comparable the zero Result, which is Nothing; no error is
surfaced.  The first two conjuncts settle each position under that
position's own failure hypothesis (the unknown-name case satisfies both
vacuously); the pipeline conjuncts show each failure kind reaching the
caller as an ordinary empty selection: a Value-returning call in test
position, a Logical-returning call in comparable position, a wrong-arity
call, and an unknown name. -/
theorem ill_typed_function_call_degrades (e : Evaluator) (fuel : Nat) (fn : FuncCall)
    (r : Result) :
    ((∀ sig, findFunctionSignature e fn.name = some sig →
        checkFunctionWellTyped fn sig FuncContext.test = false) →
      evalTestExpr e (fuel + 1 + 1) (TestExpr.funcExpr fn) r = ERes.val false) ∧
    ((∀ sig, findFunctionSignature e fn.name = some sig →
        checkFunctionWellTyped fn sig FuncContext.comparable = false) →
      evalComparable e (fuel + 1 + 1) (Comparable.funcExpr fn) r = ERes.val zeroResult) ∧
    zeroResult.Exists = false ∧
    GetMany (JVal.arr [JVal.str "x"]) "$[?length(@)]" = ERes.val [] ∧
    GetMany (JVal.arr [JVal.str "x"]) "$[?match(@, 'x') == true]" = ERes.val [] ∧
    GetMany (JVal.arr [JVal.str "x"]) "$[?length(@, @) == 1]" = ERes.val [] ∧
    GetMany (JVal.arr [JVal.str "x"]) "$[?unknown(@)]" = ERes.val [] := by
  refine ⟨fun htest => ?_, fun hcomp => ?_, rfl, rfl, rfl, rfl, rfl⟩
  · cases hsig : findFunctionSignature e fn.name with
    | none => simp [evalTestExpr, evalFuncCall, hsig, ERes.bind]
    | some sig =>
        have hc := htest sig hsig
        simp [evalTestExpr, evalFuncCall, hsig, hc, ERes.bind]
  · cases hsig : findFunctionSignature e fn.name with
    | none => simp [evalComparable, evalFuncCall, hsig, ERes.bind]
    | some sig =>
        have hc := hcomp sig hsig
        simp [evalComparable, evalFuncCall, hsig, hc, ERes.bind]

/-- Witness for C7, at the return-type cases the rules are about: length
of one argument (declared Value-returning, arity correct) in test position
fails the test rule, so the test is false; match of two arguments
(declared Logical-returning, arity correct) in comparable position fails
the comparable rule, so the comparable is the zero Result. -/
theorem ill_typed_function_call_degrades_check :
    evalTestExpr ⟨JVal.null, ⟨[]⟩, []⟩ 2
      (TestExpr.funcExpr (FuncCall.mk "length"
        [FuncArg.filterQuery (FilterQuery.mk true [])])) zeroResult = ERes.val false ∧
    evalComparable ⟨JVal.null, ⟨[]⟩, []⟩ 2
      (Comparable.funcExpr (FuncCall.mk "match"
        [FuncArg.filterQuery (FilterQuery.mk true []),
         FuncArg.literal ⟨LiteralType.string, "a"⟩])) zeroResult = ERes.val zeroResult :=
  ⟨(ill_typed_function_call_degrades ⟨JVal.null, ⟨[]⟩, []⟩ 0
      (FuncCall.mk "length" [FuncArg.filterQuery (FilterQuery.mk true [])])
      zeroResult).1
    (fun sig h => by
      have h2 := Option.some.inj h
      subst h2
      decide),
   ((ill_typed_function_call_degrades ⟨JVal.null, ⟨[]⟩, []⟩ 0
      (FuncCall.mk "match"
        [FuncArg.filterQuery (FilterQuery.mk true []),
         FuncArg.literal ⟨LiteralType.string, "a"⟩])
      zeroResult).2).1
    (fun sig h => by
      have h2 := Option.some.inj h
      subst h2
      decide)⟩

/-- C8.  The active builtinLength (functions.go, dispatched by
callFunction) measures a string by Go len, i.e. UTF-8 bytes: the two-
codepoint string of two CJK characters has length 6 there, not the 2 the
claim (and the registry variant registerLength of functions_builtin.go,
and that file's own unicode test) prescribe; through the full pipeline
the filter comparing length(@) to the codepoint count 2 selects nothing
and comparing to the byte count 6 selects the string. -/
theorem length_counts_bytes_not_codepoints :
    builtinLength [⟨toResult (JVal.str "世界"), false, [], FuncResultType.value, false⟩] =
      (numberResult 6, true) ∧
    "世界".length = 2 ∧
    (registerLengthHandler (toResult (JVal.str "世界"))).map (fun r => r.num) =
      some (GoNum.ofNat 2) ∧
    GetMany (JVal.arr [JVal.str "世界"]) "$[?length(@) == 2]" = ERes.val [] ∧
    GetMany (JVal.arr [JVal.str "世界"]) "$[?length(@) == 6]" =
      ERes.val [toResult (JVal.str "世界")] :=
  ⟨rfl, rfl, rfl, rfl, rfl⟩

set_option maxRecDepth 20000 in
/-- C9.  builtinMatch anchors by string concatenation, so the pattern text
the alternation a|b becomes is caret-a-or-b-dollar, whose branches under
RE2 precedence are (caret a) and (b dollar): on the string xb the second
branch matches the suffix and match() returns true, although the pattern
a|b does not match the whole string (no branch consumes xb entirely); the
full pipeline selects xb.  So whole-string matching fails for alternation
patterns exactly as the claim's parenthetical warns. -/
theorem match_anchoring_alternation_not_whole :
    builtinMatch
      [⟨toResult (JVal.str "xb"), false, [], FuncResultType.value, false⟩,
       ⟨toResult (JVal.str "a|b"), false, [], FuncResultType.value, false⟩] =
      (logicalResult true, true) ∧
    reCompile "a|b" = some [[RAtom.ch 'a'], [RAtom.ch 'b']] ∧
    (match reCompile "a|b" with
     | some re => reWholeMatch re "xb"
     | none => true) = false ∧
    GetMany (JVal.arr [JVal.str "xb"]) "$[?match(@, 'a|b')]" =
      ERes.val [toResult (JVal.str "xb")] :=
  ⟨rfl, rfl, rfl, rfl⟩

/-- C10.  Get is the first element of GetMany when that list is non-empty
and the zero Result otherwise (crash outcomes agreeing), and a path that
fails to parse gives GetMany nil and Get the zero Result, exactly the
observables of a successfully parsed path selecting nothing. -/
theorem get_is_first_of_getMany (json : JVal) (path : String) :
    Get json path = ERes.bind (GetMany json path)
      (fun rs => ERes.val (match rs with | [] => zeroResult | r :: _ => r)) ∧
    ((Parse path).isOk = false →
      GetMany json path = ERes.val [] ∧ Get json path = ERes.val zeroResult) := by
  cases hp : Parse path with
  | error err =>
      refine ⟨?_, fun _ => ⟨?_, ?_⟩⟩ <;> simp [Get, GetMany, hp, ERes.bind]
  | ok q =>
      refine ⟨?_, fun hno => ?_⟩
      · simp only [Get, GetMany, hp]
        cases he : (NewEvaluator json q).evaluate with
        | val rs => cases rs <;> simp [ERes.bind]
        | crash => simp [ERes.bind]
        | spin => simp [ERes.bind]
      · simp [Except.isOk, Except.toBool] at hno

end JsonpathModel
